import Mathlib

/-!
Espresso boiler controller (`gaggia`): verification of the supervisory code.

Shallow embedding of `src/gaggia/gaggia.cpp` and `src/gaggia/temperature.cpp`.

* `double` values are embedded as exact rationals (`ℚ`): no rounding, no NaN.
* The process globals of `gaggia.cpp` are the fields of `State`; every function
  of the source that mutates them is a function `State → State`.
* Everything the program does to the outside world (log lines, terminal
  messages, calls into the regulator, the boiler, the display, `system`) is
  appended, in program order, to `State.trace`; `State.clock` is the time that
  `getClock()` reads.
* Everything the program reads from the outside world (button level, files,
  key presses, sensor readings, processing time) is supplied by explicit
  arguments (`World`, `CycleIn`).
-/

namespace Gaggia

/-! ## Collaborators that are not part of the embedded sources -/

/-- Modelled from the spec: the class `Timer` of `timing.h`, which is not among the
sources. Section 4.3: `reset()` sets `lastInteractionTimestamp = now` and
`running = true`; `stop()` sets `running = false`; the elapsed time is
`now - lastInteractionTimestamp`. -/
structure Timer where
  running : Bool
  stamp : ℚ
deriving DecidableEq

/-- Modelled from the spec: `Timer::reset()`, where `now` is the clock value read by the call. -/
def Timer.reset (_t : Timer) (now : ℚ) : Timer :=
  { running := true, stamp := now }

/-- Modelled from the spec: `Timer::stop()`. -/
def Timer.stop (t : Timer) : Timer :=
  { t with running := false }

/-- Modelled from the spec: `Timer::isRunning()`. -/
def Timer.isRunning (t : Timer) : Bool :=
  t.running

/-- Modelled from the spec: `Timer::getElapsed()`, where `now` is the clock value read by the
call. -/
def Timer.getElapsed (t : Timer) (now : ℚ) : ℚ :=
  now - t.stamp

/-- Modelled from the spec: the part of the class `Regulator` (`regulator.h`, not among the
sources) that `gaggia.cpp` drives: the power flag behind `setPower` / `getPower`
(section 4.1), the parameters handed over by the `set...` calls, and whether
`start()` has been called. -/
structure Regulator where
  power : Bool
  kP : ℚ
  kI : ℚ
  kD : ℚ
  iMin : ℚ
  iMax : ℚ
  targetTemperature : ℚ
  timeStep : ℚ
  started : Bool
deriving DecidableEq

/-- Outward effects of the program, in the order in which the source issues them. -/
inductive Effect where
  -- `cerr << "gaggia: button 2 is down: aborting"`
  | abortMsg
  -- `Display display;`
  | displayOpen
  -- `ofstream out( fileName )`, with whether the stream opened
  | openLog (ok : Bool)
  -- `cerr << "error: unable to open log file "`
  | logOpenError
  -- `loadConfig( configFile )`, with its return value
  | loadConfig (ok : Bool)
  -- `out << "error: failed to load configuration from "`
  | configError
  -- `g_regulator.setPIDGains( kP, kI, kD )`
  | setPIDGains (kP kI kD : ℚ)
  -- `g_regulator.setIntegratorLimits( kMin, kMax )`
  | setIntegratorLimits (kMin kMax : ℚ)
  -- `g_regulator.setTargetTemperature( targetTemp )`
  | setTargetTemperature (targetTemp : ℚ)
  -- `g_regulator.setTimeStep( timeStep )`
  | setTimeStep (timeStep : ℚ)
  -- the parameter line written to the log
  | logHeader (kP kI kD kMin kMax targetTemp timeStep : ℚ)
  -- `nonblock( enabled )`
  | nonblock (enabled : Bool)
  -- `g_regulator.setPower( enabled )`
  | setPower (enabled : Bool)
  -- `g_regulator.start()`
  | start
  -- the per-cycle line `elapsed,powerLevel,latestTemp` written to the log
  | logLine (elapsed powerLevel latestTemp : ℚ)
  -- the per-cycle `printf` of the interactive mode
  | printLine (elapsed latestTemp : ℚ)
  -- `display.updateTemperature( latestTemp )`
  | displayTemperature (latestTemp : ℚ)
  -- `cout << "gaggia: switched off power due to inactivity"`
  | inactivityMsg
  -- `delayms( ms )`
  | delayms (ms : ℤ)
  -- `system( "halt" )`
  | systemHalt
  -- `cout << "gaggia: button 1 pressed, but there is no button 1!?"`
  | button1Msg
  -- `cout << "gaggia: shutting down"`
  | shuttingDownMsg
  -- `cout << "gaggia: boiler enabled"` or `"... disabled"`
  | boilerMsg (enabled : Bool)
  -- `printf( "gaggia: received SIGINT" )` or `SIGTERM`
  | signalMsg (signal : ℤ)
  -- `cerr << "gaggia: failed to hook SIGINT"` or `SIGTERM`
  | hookFailedMsg (signal : ℤ)
  -- `g_inputs.notifyRegister( &buttonHandler )`
  | notifyRegister
  -- `cerr << "gaggia: expected a command"`
  | expectedCommandMsg
  -- `cerr << "gaggia: unexpected option"`
  | unexpectedOptionMsg
  -- `boiler.powerOff()`
  | boilerPowerOff
  -- `cout << "gaggia: turned off boiler SSR"`
  | turnedOffMsg
  -- `cout << "gaggia: starting controller (log=...)"`
  | startingMsg
  -- `cout << "gaggia: test mode"`
  | testModeMsg
  -- `cerr << "gaggia: unrecognised command"`
  | unrecognisedCommandMsg
  -- `cout << "temp: ready"` or `"temp: not ready"` in `runTests`
  | tempReadyMsg (ready : Bool)
  -- `printf( "%.2lfC" )` in `runTests`
  | printTemperature (temp : ℚ)
deriving DecidableEq

/-- The map `std::map<std::string, double> config`: the most recent binding of a key comes
first. -/
abbrev Config := List (List Char × ℚ)

/-- The expression `config[key]` read as a value: the value stored for `key`, and `0.0` (the value
`operator[]` inserts) when there is none. -/
def Config.get (config : Config) (key : List Char) : ℚ :=
  match config.lookup key with
  | some v => v
  | none => 0

/-- The assignment `config[key] = value`. -/
def Config.set (config : Config) (key : List Char) (value : ℚ) : Config :=
  (key, value) :: config

/-- The globals of `gaggia.cpp`, and the trace of effects issued so far (oldest first). -/
structure State where
  -- `std::map<std::string, double> config`
  config : Config
  -- `g_enableBoiler`
  enableBoiler : Bool
  -- `g_quit`
  quit : Bool
  -- `g_halt`
  halt : Bool
  -- `g_autoPowerOff`, in seconds
  autoPowerOff : ℚ
  -- `g_lastUsed`
  lastUsed : Timer
  -- `g_regulator`
  regulator : Regulator
  -- the value `getClock()` returns now, in seconds
  clock : ℚ
  trace : List Effect
deriving DecidableEq

/-- Append one effect to the trace. -/
def State.emit (s : State) (e : Effect) : State :=
  { s with trace := s.trace ++ [e] }

/-- The call `g_regulator.setPower( enabled )`. -/
def State.setPower (s : State) (enabled : Bool) : State :=
  { s with regulator := { s.regulator with power := enabled }, trace := s.trace ++ [Effect.setPower enabled] }

/-- The call `g_regulator.getPower()`. -/
def State.getPower (s : State) : Bool :=
  s.regulator.power

/-- The state at program start, as the initialisers of the globals give it; the timer and the
regulator are constructed by code that is not among the sources and are arguments, as is the
time at which the program starts. -/
def State.initial (lastUsed : Timer) (regulator : Regulator) (clock : ℚ) : State :=
  { config := [], enableBoiler := true, quit := false, halt := false, autoPowerOff := 0,
    lastUsed := lastUsed, regulator := regulator, clock := clock, trace := [] }

/-- Time passes: the clock advances by `dt` seconds. -/
def State.elapse (s : State) (dt : ℚ) : State :=
  { s with clock := s.clock + dt }

/-! ## `signalHandler` and `buttonHandler` -/

/-- The signal number `SIGINT`. -/
def SIGINT : ℤ := 2

/-- The signal number `SIGTERM`. -/
def SIGTERM : ℤ := 15

/-- The function `signalHandler( signal )`. -/
def signalHandler (signal : ℤ) (s : State) : State :=
  if signal = SIGINT then
    { (s.emit (Effect.signalMsg SIGINT)) with quit := true }
  else if signal = SIGTERM then
    { (s.emit (Effect.signalMsg SIGTERM)) with quit := true }
  else s

/-- The function `buttonHandler( button, state, time )`; `now` is the clock value read by
`g_lastUsed.reset()`. -/
def buttonHandler (button : ℤ) (state : Bool) (time : ℚ) (now : ℚ) (s : State) : State :=
  -- reset the timer whenever the user interacts with the machine
  let s := { s with lastUsed := s.lastUsed.reset now }
  if button = 1 then
    if state then s.emit Effect.button1Msg
    else s
  else if button = 2 then
    if state then s
    else if time ≥ 1 then
      -- button was held for 1 second, shut down the system
      let s := s.emit Effect.shuttingDownMsg
      let s := { s with halt := true }
      { s with quit := true }
    else
      -- button was pushed briefly, toggle boiler power
      let s := s.setPower (!s.getPower)
      s.emit (Effect.boilerMsg s.getPower)
  else s

/-! ## Formatted extraction from a character stream (`operator>>` of `<istream>`) -/

/-- The characters `std::ws` and the formatted extractors skip (`isspace` in the C locale). -/
def isSpace (c : Char) : Bool :=
  c = ' ' || c = '\t' || c = '\n' || c = '\x0b' || c = '\x0c' || c = '\r'

/-- The manipulator `std::ws`: discard leading whitespace. -/
def skipWs (s : List Char) : List Char :=
  s.dropWhile isSpace

/-- The extraction `f >> ws >> key` into a `std::string`: skip whitespace, then take the
characters up to the next whitespace or the end of the stream. It fails (`none`) when no
character is left. The result is the word and the rest of the stream. -/
def readKey (s : List Char) : Option (List Char × List Char) :=
  match skipWs s with
  | [] => none
  | c :: cs => some ((c :: cs).takeWhile (fun x => !isSpace x), (c :: cs).dropWhile (fun x => !isSpace x))

/-- Stage 2 of the extraction of a `double` (`num_get`): accumulate the characters that can
continue a floating-point field, and stop at the first one that cannot. `foundMantissa`,
`foundDec` and `foundSci` say whether a digit, the decimal point and the exponent letter have
been seen; `afterSci` says that the exponent letter was the previous character, after which
an optional sign is taken. The result is the accumulated field and the rest of the stream. -/
def scanFloat (foundMantissa foundDec foundSci afterSci : Bool) :
    List Char → List Char × List Char
  | [] => ([], [])
  | c :: cs =>
    if afterSci && (c = '+' || c = '-') then
      let r := scanFloat foundMantissa foundDec foundSci false cs
      (c :: r.1, r.2)
    else if c.isDigit then
      let r := scanFloat true foundDec foundSci false cs
      (c :: r.1, r.2)
    else if c = '.' && !foundDec && !foundSci then
      let r := scanFloat foundMantissa true foundSci false cs
      (c :: r.1, r.2)
    else if (c = 'e' || c = 'E') && !foundSci && foundMantissa then
      let r := scanFloat foundMantissa foundDec true true cs
      (c :: r.1, r.2)
    else ([], c :: cs)

/-- The field accumulated for a `double`: an optional sign, then `scanFloat`. -/
def scanField : List Char → List Char × List Char
  | [] => ([], [])
  | c :: cs =>
    if c = '+' || c = '-' then
      let r := scanFloat false false false false cs
      (c :: r.1, r.2)
    else scanFloat false false false false (c :: cs)

/-- The value of a string of decimal digits. -/
def digitsValue (ds : List Char) : ℕ :=
  ds.foldl (fun n c => 10 * n + (c.toNat - 48)) 0

/-- The exponent part of a floating-point field: empty, or `e` / `E`, an optional sign and at
least one digit and nothing else. The result is the power of ten to multiply with. -/
def exponentValue : List Char → Option ℚ
  | [] => some 1
  | c :: cs =>
    if c = 'e' || c = 'E' then
      match cs with
      | [] => none
      | d :: ds =>
        if d = '-' then
          if ds ≠ [] ∧ ds.all Char.isDigit then some (1 / (10 : ℚ) ^ digitsValue ds) else none
        else if d = '+' then
          if ds ≠ [] ∧ ds.all Char.isDigit then some ((10 : ℚ) ^ digitsValue ds) else none
        else
          if (d :: ds).all Char.isDigit then some ((10 : ℚ) ^ digitsValue (d :: ds)) else none
    else none

/-- The magnitude of an unsigned floating-point field: digits, an optional point and more
digits (at least one digit in all), and an optional exponent part. -/
def magnitudeValue (s : List Char) : Option ℚ :=
  let ip := s.takeWhile Char.isDigit
  let s1 := s.dropWhile Char.isDigit
  let fp := match s1 with
    | '.' :: t => t.takeWhile Char.isDigit
    | _ => []
  let s2 := match s1 with
    | '.' :: t => t.dropWhile Char.isDigit
    | _ => s1
  if ip = [] ∧ fp = [] then none
  else
    match exponentValue s2 with
    | some e => some (((digitsValue ip : ℚ) + (digitsValue fp : ℚ) / (10 : ℚ) ^ fp.length) * e)
    | none => none

/-- The number that a floating-point field denotes: an optional sign and a magnitude, with
nothing left over. -/
def fieldNumber : List Char → Option ℚ
  | '-' :: t => (magnitudeValue t).map (fun v => -v)
  | '+' :: t => magnitudeValue t
  | s => magnitudeValue s

/-- The least magnitude that no longer rounds to a finite `double`: halfway between the
largest `double`, `2^1024 - 2^971`, and `2^1024`. -/
def doubleOverflow : ℚ := 2 ^ 1024 - 2 ^ 970

/-- Stage 3 of the extraction of a `double`: the conversion of the accumulated field (`strtod`,
which has to consume the whole field). The extraction fails (`none`) when the field is not a
number, and also when the number is out of range, that is when `strtod` returns an infinity.
A number in range is kept exact, without rounding. -/
def fieldValue (s : List Char) : Option ℚ :=
  match fieldNumber s with
  | some v => if |v| < doubleOverflow then some v else none
  | none => none

/-- The extraction `f >> ws >> value` into a `double`: skip whitespace, accumulate the field,
convert it. It fails (`none`) when the field is not a number in the range of `double`. The
result is the value and the rest of the stream. -/
def readValue (s : List Char) : Option (ℚ × List Char) :=
  let r := scanField (skipWs s)
  match fieldValue r.1 with
  | some v => some (v, r.2)
  | none => none

/-! ## `loadConfig` -/

/-- The `do ... while (true)` loop of `loadConfig` on the rest `f` of the stream. Every round
that does not break consumes at least one character, so `fuel` larger than the length of the
stream is never used up; `none` would mean that it was. -/
def loadConfigLoop : ℕ → List Char → Config → Option Config
  | 0, _, _ => none
  | fuel + 1, f, config =>
    -- read key
    match readKey f with
    | none => some config
    | some (key, f) =>
      -- read value
      match readValue f with
      | none => some config
      | some (value, f) =>
        -- store key/value
        loadConfigLoop fuel f (config.set key value)

/-- The function `loadConfig( fileName )`: `file` is the content of the file, `none` when the
file cannot be opened. The result is the return value and the map `config` afterwards. The loop
is given more fuel than the stream has characters, which it never uses up
(`loadConfigLoop_terminates`). -/
def loadConfig (file : Option (List Char)) (config : Config) : Bool × Config :=
  match file with
  | none => (false, config)
  | some f =>
    match loadConfigLoop (f.length + 1) f config with
    | some config => (true, config)
    | none => (true, config)

/-! ## `runController` -/

/-- A notification that reaches the program from outside the control loop: a call of
`buttonHandler` by the input source (`now` is the clock value its timer reset reads), or a
signal. -/
inductive Async where
  | button (button : ℤ) (state : Bool) (time : ℚ) (now : ℚ)
  | signal (signal : ℤ)
deriving DecidableEq

/-- Run the handler of one notification. -/
def Async.handle (a : Async) (s : State) : State :=
  match a with
  | Async.button b st t now => buttonHandler b st t now s
  | Async.signal n => signalHandler n s

/-- Run the handlers of a list of notifications, in order. -/
def handleAll (as : List Async) (s : State) : State :=
  as.foldl (fun s a => a.handle s) s

/-- What the outside world supplies to one cycle of the control loop. -/
structure CycleIn where
  -- the value of `kbhit()` at the loop test (read in interactive mode only)
  kbhit : Bool
  -- processing time spent before the clock is read for `elapsed`
  work : ℚ
  -- `g_regulator.getTemperature()`
  latestTemp : ℚ
  -- `g_regulator.getPowerLevel()`
  powerLevel : ℚ
  -- notifications handled while the cycle runs, before its inactivity test
  duringBody : List Async
  -- processing time spent on logging and display, before the inactivity test
  workLog : ℚ
  -- processing time spent between the inactivity test and the reading for `remain`
  workIdle : ℚ
  -- notifications handled after the inactivity test and before the next loop test
  duringSleep : List Async
  -- the time by which the cycle ends after the requested sleep is over
  late : ℚ
deriving DecidableEq

/-- What the outside world supplies to a run of `runController`. -/
structure World where
  -- `g_inputs.getButton(2)` at entry
  button2 : Bool
  -- whether the log file can be opened
  logOpens : Bool
  -- the content of `/etc/gaggia.conf`, `none` when it cannot be opened
  configFile : Option (List Char)
  -- the cycles of the control loop for which inputs are supplied
  cycles : List CycleIn
deriving DecidableEq

/-- The conversion `static_cast<int>( x )`: truncation towards zero. -/
def truncToInt (x : ℚ) : ℤ :=
  if 0 ≤ x then x.floor else -((-x).floor)

/-- The constant `timeStepGUI` of `runController`: the period of the control loop, in seconds. -/
def timeStepGUI : ℚ := 1 / 4

/-- The end of a cycle, "sleep for remainder of time step": `remain = next - getClock()`, and
`delayms( static_cast<int>(1.0E3 * remain) )` when `remain > 0.0`. The sleep lasts the requested
number of milliseconds. -/
def sleepRemainder (next : ℚ) (s : State) : State :=
  let remain := next - s.clock
  if remain > 0 then
    (s.emit (Effect.delayms (truncToInt (1000 * remain)))).elapse (truncToInt (1000 * remain) / 1000)
  else s

/-- The inactivity test of the control loop: "if auto cut out is enabled (greater than one
second) and if too much time has elapsed since the last user interaction, and the timer is
running, turn off the boiler as a precaution". -/
def inactivityCheck (s : State) : State :=
  if s.autoPowerOff > 1 ∧ s.lastUsed.isRunning = true ∧
      s.lastUsed.getElapsed s.clock > s.autoPowerOff then
    -- switch off the boiler
    let s := s.setPower false
    -- stop the timer to prevent repeat triggering
    let s := { s with lastUsed := s.lastUsed.stop }
    -- explanatory message
    s.emit Effect.inactivityMsg
  else s

/-- The body of the control loop after the loop test, up to the next loop test. -/
def cycleBody (interactive : Bool) (start : ℚ) (next : ℚ) (c : CycleIn) (s : State) : State :=
  -- calculate elapsed time
  let s := s.elapse c.work
  let elapsed := s.clock - start
  -- dump values to log file
  let s := s.emit (Effect.logLine elapsed c.powerLevel c.latestTemp)
  let s := if interactive then s.emit (Effect.printLine elapsed c.latestTemp) else s
  -- update temperature display
  let s := s.emit (Effect.displayTemperature c.latestTemp)
  let s := handleAll c.duringBody (s.elapse c.workLog)
  let s := inactivityCheck s
  -- sleep for remainder of time step
  let s := sleepRemainder next (s.elapse c.workIdle)
  (handleAll c.duringSleep s).elapse c.late

/-- The `do ... while (true)` loop of `runController`, run on the supplied cycles. The result
says whether the loop was left (`true`), or is still running when the supplied cycles are used
up (`false`), and gives the state at that point. -/
def controlLoop (interactive : Bool) (start : ℚ) : ℚ → List CycleIn → State → Bool × State
  | _, [], s => (false, s)
  | next, c :: cs, s =>
    -- next time step
    let next := next + timeStepGUI
    -- in interactive mode, exit if any key is pressed
    if interactive && c.kbhit then (true, s)
    -- if asked to stop (e.g. via SIGINT)
    else if s.quit then (true, s)
    else controlLoop interactive start next cs (cycleBody interactive start next c s)

/-- The part of `runController` after the control loop. -/
def shutdown (interactive : Bool) (s : State) : State :=
  let s := if interactive then s.emit (Effect.nonblock false) else s
  -- turn the boiler off before we exit
  let s := s.setPower false
  -- if the halt button was pushed, halt the system
  if s.halt then s.emit Effect.systemHalt else s

/-- The part of `runController` before the control loop. The result is the return value when
the function returns here, and the state. -/
def startup (interactive : Bool) (w : World) (s : State) : Option ℤ × State :=
  -- if button 2 is pushed during initialisation, abort
  if w.button2 then (some 1, s.emit Effect.abortMsg)
  else
    let s := s.emit Effect.displayOpen
    -- open log file
    let s := s.emit (Effect.openLog w.logOpens)
    if !w.logOpens then (some 1, s.emit Effect.logOpenError)
    else
      -- read configuration file
      match loadConfig w.configFile s.config with
      | (false, config) =>
        (some 1, ({ s with config := config }.emit (Effect.loadConfig false)).emit Effect.configError)
      | (true, config) =>
        let s := { s with config := config }.emit (Effect.loadConfig true)
        -- read auto cut out time (minutes in the file, converted to seconds here)
        let s := { s with autoPowerOff := s.config.get "autoPowerOff".toList * 60 }
        -- read PID controller parameters from configuration
        let kP := s.config.get "kP".toList
        let kI := s.config.get "kI".toList
        let kD := s.config.get "kD".toList
        let kMin := s.config.get "iMin".toList
        let kMax := s.config.get "iMax".toList
        -- set the PID controller parameters
        let s := { s with regulator := { s.regulator with kP := kP, kI := kI, kD := kD } }.emit
          (Effect.setPIDGains kP kI kD)
        let s := { s with regulator := { s.regulator with iMin := kMin, iMax := kMax } }.emit
          (Effect.setIntegratorLimits kMin kMax)
        -- target temperature in degrees centigrade
        let targetTemp := s.config.get "targetTemp".toList
        let s := { s with regulator := { s.regulator with targetTemperature := targetTemp } }.emit
          (Effect.setTargetTemperature targetTemp)
        -- time step in seconds
        let timeStep := s.config.get "timeStep".toList
        let s := { s with regulator := { s.regulator with timeStep := timeStep } }.emit
          (Effect.setTimeStep timeStep)
        -- output parameters to log
        let s := s.emit (Effect.logHeader kP kI kD kMin kMax targetTemp timeStep)
        (none, if interactive then s.emit (Effect.nonblock true) else s)

/-- The function `runController( interactive, fileName )`. The result is the return value, or
`none` when the control loop is still running after the supplied cycles, and the state. -/
def runController (interactive : Bool) (w : World) (s : State) : Option ℤ × State :=
  match startup interactive w s with
  | (some rc, s) => (some rc, s)
  | (none, s) =>
    -- start time and next time step
    let start := s.clock
    let next := start
    -- turn on the power and start the regulator (boiler will begin to heat)
    let s := s.setPower s.enableBoiler
    let s := { s with regulator := { s.regulator with started := true } }.emit Effect.start
    match controlLoop interactive start next w.cycles s with
    | (false, s) => (none, s)
    | (true, s) => (some 0, shutdown interactive s)

/-! ## `Temperature::getDegrees` (`temperature.cpp`) -/

/-- An input file stream: the characters not read yet, and whether the stream is still good
(neither at its end nor failed). -/
structure IStream where
  rest : List Char
  good : Bool
deriving DecidableEq

/-- The call `getline( sensor, line )`: on a stream that is not good the line is left as it is;
otherwise the line becomes the characters up to the next newline, which is consumed. The
result is the stream and the line afterwards. -/
def getline (f : IStream) (line : List Char) : IStream × List Char :=
  if !f.good then (f, line)
  else
    match f.rest.dropWhile (fun c => c ≠ '\n') with
    | [] => ({ rest := [], good := false }, f.rest.takeWhile (fun c => c ≠ '\n'))
    | _ :: rest => ({ rest := rest, good := true }, f.rest.takeWhile (fun c => c ≠ '\n'))

/-- The call `line.substr( pos, n )`, where `pos` was computed in `int` and is converted to
`size_t`: a negative `pos` becomes a position past the end. `none` is the exception
`std::out_of_range`. -/
def substr (line : List Char) (pos : ℤ) (n : ℕ) : Option (List Char) :=
  if 0 ≤ pos ∧ pos ≤ line.length then some ((line.drop pos.toNat).take n) else none

/-- The function `atoi`: skip whitespace, read an optional sign and the decimal digits that
follow; `0` when there are none. -/
def atoi (s : List Char) : ℤ :=
  match skipWs s with
  | '-' :: t => -(digitsValue (t.takeWhile Char.isDigit) : ℤ)
  | '+' :: t => (digitsValue (t.takeWhile Char.isDigit) : ℤ)
  | t => (digitsValue (t.takeWhile Char.isDigit) : ℤ)

/-- How a call of `getDegrees` ends. -/
inductive Reading where
  -- it returns `ret`, and `degrees` is what it stores in `*value` when `value` is not null
  | value (ret : Bool) (degrees : ℚ)
  -- `substr` throws `std::out_of_range`
  | outOfRange
  -- it is still waiting for a good first line after the supplied re-reads
  | blocked
deriving DecidableEq

/-- The loop "check is output is good" of `getDegrees`: while the three characters of `line`
at `size - 3` are not `YES`, open the sensor file again (`reopened` is its content at each
further opening) and read its first line into `line`; `size` is not updated. The result is
the line on leaving the loop, `outOfRange` for the exception, `blocked` when the re-reads are
used up. -/
def waitForYes (size : ℤ) : List (List Char) → List Char → Reading ⊕ List Char
  | [], line =>
    match substr line (size - 3) 3 with
    | none => Sum.inl Reading.outOfRange
    | some t => if t ≠ "YES".toList then Sum.inl Reading.blocked else Sum.inr line
  | r :: reopened, line =>
    match substr line (size - 3) 3 with
    | none => Sum.inl Reading.outOfRange
    | some t =>
      if t ≠ "YES".toList then waitForYes size reopened (getline { rest := r, good := true } line).2
      else Sum.inr line

/-- The function `Temperature::getDegrees( value )`: `sensor` is the content of the sensor file
when it is opened, `reopened` its content at each further opening. -/
def getDegrees (sensor : List Char) (reopened : List (List Char)) : Reading :=
  -- attempt to open the sensor
  let f : IStream := { rest := sensor, good := true }
  -- read the first line
  let r := getline f []
  let size : ℤ := r.2.length
  -- check the output is good
  match waitForYes size reopened r.2 with
  | Sum.inl e => e
  | Sum.inr line =>
    -- get temperature line
    let r := getline r.1 line
    let size : ℤ := r.2.length
    match substr r.2 (size - 5) 5 with
    | none => Reading.outOfRange
    | some temp =>
      -- convert to degrees
      Reading.value true ((atoi temp : ℚ) / 1000)

/-! ## `runTests` and `main` -/

/-- What the outside world supplies to one cycle of the loop of `runTests`. -/
structure TestCycleIn where
  -- the value of `kbhit()`
  kbhit : Bool
  -- the sensor file when `getDegrees` opens it, and at each further opening
  sensor : List Char
  reopened : List (List Char)
  -- processing time spent before the reading for `remain`
  work : ℚ
  -- notifications handled before the next loop test
  duringSleep : List Async
  -- the time by which the cycle ends after the requested sleep is over
  late : ℚ
deriving DecidableEq

/-- What the outside world supplies to a run of `runTests`. -/
structure TestWorld where
  -- the sensor file at the first call of `getDegrees`
  sensor : List Char
  reopened : List (List Char)
  cycles : List TestCycleIn
deriving DecidableEq

/-- The `do ... while (true)` loop of `runTests`, with the period `timeStep = 0.5`. The result
is `some true` when the loop was left, `some false` when it is still running after the supplied
cycles, `none` when `getDegrees` did not return. -/
def testLoop : ℚ → List TestCycleIn → State → Option Bool × State
  | _, [], s => (some false, s)
  | next, c :: cs, s =>
    -- calculate next time step
    let next := next + 1 / 2
    -- if quit has been requested (e.g. via SIGINT)
    if s.quit then (some true, s)
    -- any key stops the loop
    else if c.kbhit then (some true, s)
    else
      -- read temperature sensor
      match getDegrees c.sensor c.reopened with
      | Reading.value _ temp =>
        -- print sensor values
        let s := s.emit (Effect.printTemperature temp)
        -- update temperature on display
        let s := s.emit (Effect.displayTemperature temp)
        -- sleep for remainder of time step
        let s := sleepRemainder next (s.elapse c.work)
        testLoop next cs ((handleAll c.duringSleep s).elapse c.late)
      | _ => (none, s)

/-- The function `runTests()`. The result is the return value, or `none` when the function has
not returned. -/
def runTests (w : TestWorld) (s : State) : Option ℤ × State :=
  let s := s.emit Effect.displayOpen
  match getDegrees w.sensor w.reopened with
  | Reading.value ret _ =>
    let s := s.emit (Effect.tempReadyMsg ret)
    let s := s.emit (Effect.nonblock true)
    -- start time and next time step
    let next := s.clock
    match testLoop next w.cycles s with
    | (some true, s) => (some 0, s.emit (Effect.nonblock false))
    | (_, s) => (none, s)
  | _ => (none, s)

/-- The option loop of `main`: `-i` sets `interactive`, `-d` clears `g_enableBoiler`, anything
else is reported. -/
def parseOptions : List String → Bool × State → Bool × State
  | [], r => r
  | option :: options, (interactive, s) =>
    if option = "-i" then parseOptions options (true, s)
    else if option = "-d" then
      -- disable the boiler
      parseOptions options (interactive, { s with enableBoiler := false })
    else parseOptions options (interactive, s.emit Effect.unexpectedOptionMsg)

/-- The function `main( argc, argv )`: `argv` is the argument vector with the program name
first, `hookInt` and `hookTerm` say whether hooking `SIGINT` and `SIGTERM` succeeds. The result
is the exit code, or `none` when the program has not returned, and the state. -/
def main (argv : List String) (hookInt hookTerm : Bool) (w : World) (tw : TestWorld)
    (s : State) : Option ℤ × State :=
  -- hook SIGINT so we can exit gracefully
  if !hookInt then (some 1, s.emit (Effect.hookFailedMsg SIGINT))
  -- hook SIGTERM so we can exit gracefully
  else if !hookTerm then (some 1, s.emit (Effect.hookFailedMsg SIGTERM))
  else
    -- register notification handlers
    let s := s.emit Effect.notifyRegister
    match argv with
    | [] => (some 1, s.emit Effect.expectedCommandMsg)
    | [_] => (some 1, s.emit Effect.expectedCommandMsg)
    | _ :: command :: options =>
      let r := parseOptions options (false, s)
      let interactive := r.1
      let s := r.2
      if command = "stop" then
        (some 0, (s.emit Effect.boilerPowerOff).emit Effect.turnedOffMsg)
      else if command = "start" then
        runController interactive w (s.emit Effect.startingMsg)
      else if command = "test" then
        runTests tw (s.emit Effect.testModeMsg)
      else (some 1, s.emit Effect.unrecognisedCommandMsg)

/-! ## Conditions of the claims, and example inputs -/

/-- The condition of claim C2, in its words: the threshold is above one second, the last-used
timer is running, and the time elapsed since the last interaction is strictly greater than the
threshold. -/
def idleTooLong (s : State) : Prop :=
  s.autoPowerOff > 1 ∧ s.lastUsed.running = true ∧ s.clock - s.lastUsed.stamp > s.autoPowerOff

instance (s : State) : Decidable (idleTooLong s) := by
  unfold idleTooLong; infer_instance

/-- The state of a cycle at its inactivity test, when no notification arrives in the cycle. -/
def atInactivityCheck (interactive : Bool) (start : ℚ) (c : CycleIn) (s : State) : State :=
  let s := s.elapse c.work
  let s := s.emit (Effect.logLine (s.clock - start) c.powerLevel c.latestTemp)
  let s := if interactive then s.emit (Effect.printLine (s.clock - start) c.latestTemp) else s
  (s.emit (Effect.displayTemperature c.latestTemp)).elapse c.workLog

/-- A state for the examples: the state at program start with a running timer, a regulator that
is switched on, and the clock at zero. -/
def exampleState : State :=
  State.initial { running := true, stamp := 0 }
    { power := true, kP := 0, kI := 0, kD := 0, iMin := 0, iMax := 0, targetTemperature := 0,
      timeStep := 0, started := false } 0

/-- The effects that are calls into the regulator. -/
def Effect.isRegulatorCall : Effect → Bool
  | Effect.setPIDGains _ _ _ => true
  | Effect.setIntegratorLimits _ _ => true
  | Effect.setTargetTemperature _ => true
  | Effect.setTimeStep _ => true
  | Effect.setPower _ => true
  | Effect.start => true
  | _ => false

/-- The warnings of `main` for an option list: one for every option that is neither `-i` nor
`-d`. -/
def optionWarnings (options : List String) : List Effect :=
  (options.filter (fun o => o ≠ "-i" ∧ o ≠ "-d")).map (fun _ => Effect.unexpectedOptionMsg)

/-- The state of `main` after the handler registration and the option loop: the boiler-enable
flag is cleared when some option is `-d`, and the warnings are issued. -/
def afterOptions (options : List String) (s : State) : State :=
  { s with enableBoiler := s.enableBoiler && !decide ("-d" ∈ options),
           trace := s.trace ++ [Effect.notifyRegister] ++ optionWarnings options }

/-- The loop test of claim C1, in its words: the quit flag is set, or the mode is interactive
and a key press is pending. -/
def exitTest (interactive : Bool) (c : CycleIn) (s : State) : Prop :=
  s.quit = true ∨ (interactive = true ∧ c.kbhit = true)

/-- The state after the bodies of the given cycles, run one after the other with no loop test
between them; `next` is the deadline before the first of them. -/
def runBodies (interactive : Bool) (start : ℚ) : ℚ → List CycleIn → State → State
  | _, [], s => s
  | next, c :: cs, s =>
    runBodies interactive start (next + timeStepGUI) cs
      (cycleBody interactive start (next + timeStepGUI) c s)

/-- The state in which `runController` enters the control loop, after a start-up that ended in
state `s`: the power is set to the boiler-enable flag and the regulator is started. -/
def loopEntry (s : State) : State :=
  { s.setPower s.enableBoiler with
      regulator := { (s.setPower s.enableBoiler).regulator with started := true } }.emit
    Effect.start

/-- Whether a notification is a call of `buttonHandler`. -/
def Async.isButton : Async → Bool
  | Async.button _ _ _ _ => true
  | Async.signal _ => false

/-- No call of `buttonHandler` arrives during the given cycles. -/
def noButtons (cycles : List CycleIn) : Prop :=
  ∀ c ∈ cycles, ∀ a ∈ c.duringBody ++ c.duringSleep, a.isButton = false

/-- How often the inactivity branch has been taken so far: the number of its messages in the
trace. -/
def fires (s : State) : ℕ :=
  s.trace.count Effect.inactivityMsg

/-- How often the regulator has been switched off so far: the number of `setPower( false )` in
the trace. -/
def powerOffs (s : State) : ℕ :=
  s.trace.count (Effect.setPower false)

/-- What the inactivity test reads and writes, apart from the clock: the timer, the threshold,
the power flag, and the two counts. -/
def watchdogView (s : State) : Timer × ℚ × Bool × ℕ × ℕ :=
  (s.lastUsed, s.autoPowerOff, s.regulator.power, fires s, powerOffs s)

/-- The state in which the start-up of `runController` ends when nothing fails and the
configuration `config` has been loaded: the threshold is 60 times the `autoPowerOff` value, the
regulator has received the values of the keys, and the effects of the start-up are in the
trace. -/
def configured (interactive : Bool) (config : Config) (s : State) : State :=
  { s with
    config := config
    autoPowerOff := config.get "autoPowerOff".toList * 60
    regulator :=
      { s.regulator with
        kP := config.get "kP".toList
        kI := config.get "kI".toList
        kD := config.get "kD".toList
        iMin := config.get "iMin".toList
        iMax := config.get "iMax".toList
        targetTemperature := config.get "targetTemp".toList
        timeStep := config.get "timeStep".toList }
    trace := s.trace ++
      [Effect.displayOpen, Effect.openLog true, Effect.loadConfig true,
       Effect.setPIDGains (config.get "kP".toList) (config.get "kI".toList)
         (config.get "kD".toList),
       Effect.setIntegratorLimits (config.get "iMin".toList) (config.get "iMax".toList),
       Effect.setTargetTemperature (config.get "targetTemp".toList),
       Effect.setTimeStep (config.get "timeStep".toList),
       Effect.logHeader (config.get "kP".toList) (config.get "kI".toList)
         (config.get "kD".toList) (config.get "iMin".toList) (config.get "iMax".toList)
         (config.get "targetTemp".toList) (config.get "timeStep".toList)] ++
      (if interactive = true then [Effect.nonblock true] else []) }

/-- A cycle with zero processing cost: no time passes except in the sleep. -/
def zeroCost (c : CycleIn) : Prop :=
  c.work = 0 ∧ c.workLog = 0 ∧ c.workIdle = 0 ∧ c.late = 0

/-- A cycle for the examples: no key press, no notification, zero processing cost. -/
def quietCycle : CycleIn :=
  { kbhit := false, work := 0, latestTemp := 90, powerLevel := 1 / 2, duringBody := [],
    workLog := 0, workIdle := 0, duringSleep := [], late := 0 }

/-- A world for the examples: the start-up succeeds, the configuration file sets `timeStep` to
one second, and one quiet cycle is supplied. -/
def oneSecondWorld : World :=
  { button2 := false, logOpens := true, configFile := some "timeStep 1".toList,
    cycles := [quietCycle] }

/-- A cycle for the examples: like `quietCycle`, but the input source reports, during the sleep,
a release of button 2 after a hold of 1.2 seconds. -/
def longPressCycle : CycleIn :=
  { quietCycle with duringSleep := [Async.button 2 false (6 / 5) (1 / 10)] }

/-- A cycle for the examples: like `quietCycle`, but 61 seconds pass before the clock is read. -/
def lateCycle : CycleIn :=
  { quietCycle with work := 61 }

/-- A state for the examples: `exampleState` with a threshold of 60 seconds. -/
def watchingState : State :=
  { exampleState with autoPowerOff := 60 }

/-- A state for the examples: `watchingState` 61 seconds after the last interaction. -/
def idleState : State :=
  { watchingState with clock := 61 }

/-- One key / value pair of a configuration file as claim C8 describes it: the key, the
whitespace between key and value, the field of the value and the number it denotes, and the
whitespace after the value. -/
structure Entry where
  key : List Char
  sep : List Char
  field : List Char
  value : ℚ
  gap : List Char

/-- The characters of a pair. -/
def Entry.text (e : Entry) : List Char :=
  e.key ++ e.sep ++ e.field ++ e.gap

/-- A pair is well formed: the key is a non-empty word, key and value are separated by
whitespace, the field of the value is a word that the extraction of a `double` reads as a whole
as the number `value`, and only whitespace follows. -/
def Entry.WellFormed (e : Entry) : Prop :=
  e.key ≠ [] ∧ (∀ c ∈ e.key, isSpace c = false) ∧
  e.sep ≠ [] ∧ (∀ c ∈ e.sep, isSpace c = true) ∧
  (∀ c ∈ e.field, isSpace c = false) ∧ readValue e.field = some (e.value, []) ∧
  (∀ c ∈ e.gap, isSpace c = true)

/-- Consecutive pairs are separated by whitespace: only the last pair may end without any. -/
def separated : List Entry → Prop
  | e :: e' :: es => e.gap ≠ [] ∧ separated (e' :: es)
  | _ => True

/-- The characters of the pairs, one after the other. -/
def entriesText : List Entry → List Char
  | [] => []
  | e :: es => e.text ++ entriesText es

/-- The configuration files of claim C8: optional leading whitespace, then whitespace-separated
key / numeric-value pairs. -/
def WellFormedFile (lead : List Char) (entries : List Entry) : Prop :=
  (∀ c ∈ lead, isSpace c = true) ∧ (∀ e ∈ entries, e.WellFormed) ∧ separated entries

/-- The map that the pairs of a file denote, in the representation of `Config`: the last pair
first. -/
def entriesConfig (entries : List Entry) : Config :=
  entries.reverse.map (fun e => (e.key, e.value))

instance : DecidablePred Entry.WellFormed := fun e => by
  unfold Entry.WellFormed; infer_instance

/-- The pairs of a configuration file for the examples, in which `kP` occurs twice. -/
def exampleEntries : List Entry :=
  [{ key := "kP".toList, sep := " ".toList, field := "1.5".toList, value := 3 / 2,
     gap := "\n".toList },
   { key := "kI".toList, sep := " ".toList, field := "2".toList, value := 2,
     gap := " ".toList },
   { key := "kD".toList, sep := "\t".toList, field := "-3e-1".toList, value := -3 / 10,
     gap := "\n ".toList },
   { key := "autoPowerOff".toList, sep := " ".toList, field := "1".toList, value := 1,
     gap := "\n".toList },
   { key := "kP".toList, sep := "  ".toList, field := "7".toList, value := 7,
     gap := [] }]

/-- The end of a field: the end of the stream, or a whitespace character. -/
def atBoundary (rest : List Char) : Prop :=
  rest = [] ∨ ∃ c r, rest = c :: r ∧ isSpace c = true

/-- The first line of a sensor file whose check passed, for the examples. -/
def crcLine : List Char :=
  "72 01 4b 46 7f ff 0e 10 57 : crc=57 YES\n".toList

/-- A cycle that is on time: its processing takes less than the period, and it ends when its
sleep ends. -/
def onTime (c : CycleIn) : Prop :=
  c.work + c.workLog + c.workIdle < timeStepGUI ∧ c.late = 0

instance : DecidablePred onTime := fun c => by
  unfold onTime; infer_instance

/-- A cycle for the examples: like `quietCycle`, but a third of a millisecond passes before the
clock is read, so that the sleep is cut to whole milliseconds. -/
def busyCycle : CycleIn :=
  { quietCycle with work := 1 / 3000 }

/-- A cycle for the examples: like `quietCycle`, but the processing takes 0.3 seconds, more
than the period. -/
def overrunCycle : CycleIn :=
  { quietCycle with workLog := 3 / 10 }

/-- An upper bound of the number of characters that `sprintf` writes for `%.<decimals>lf` of
`v`: a sign, the digits of the integer part (one more than the digits of the integer part of
`v` plus one, which allows for rounding), the point and the decimals. -/
def formattedWidth (decimals : ℕ) (v : ℚ) : ℕ :=
  3 + (Nat.toDigits 10 (|v|.floor.toNat + 1)).length + decimals

/-- An upper bound of the length of the parameter line that `runController` formats into
`char buffer[512]`: the 42 characters of the format string outside the conversions, and the
seven numbers. -/
def headerWidth (config : Config) : ℕ :=
  42 + formattedWidth 4 (config.get "kP".toList) + formattedWidth 4 (config.get "kI".toList) +
    formattedWidth 4 (config.get "kD".toList) + formattedWidth 3 (config.get "iMin".toList) +
    formattedWidth 3 (config.get "iMax".toList) +
    formattedWidth 3 (config.get "targetTemp".toList) +
    formattedWidth 3 (config.get "timeStep".toList)

/-- The parameter line and its terminator fit the buffer of 512 characters. -/
def headerFits (config : Config) : Prop :=
  headerWidth config < 512

instance : DecidablePred headerFits := fun config => by
  unfold headerFits; infer_instance

/-- A configuration file for the examples whose first value, `1e999`, is a number outside the
range of `double`. -/
def overflowFile : List Char :=
  "kP 1e999\nkI 2\n".toList

/-! ## Properties of `buttonHandler` -/

/-- Claim C4. The effect of `buttonHandler( button, state, time )` on the power flag of the
regulator and on the quit and halt flags: a release of button 2 held for at least one second
(the bound included) sets quit and halt and leaves the power flag; a release of button 2 held
for less than one second inverts the power flag and leaves quit and halt; every other input
leaves all three. -/
theorem buttonHandler_control_state (button : ℤ) (state : Bool) (time now : ℚ) (s : State) :
    (button = 2 → state = false → 1 ≤ time →
      (buttonHandler button state time now s).quit = true ∧
      (buttonHandler button state time now s).halt = true ∧
      (buttonHandler button state time now s).regulator.power = s.regulator.power) ∧
    (button = 2 → state = false → time < 1 →
      (buttonHandler button state time now s).regulator.power = !s.regulator.power ∧
      (buttonHandler button state time now s).quit = s.quit ∧
      (buttonHandler button state time now s).halt = s.halt) ∧
    (¬ (button = 2 ∧ state = false) →
      (buttonHandler button state time now s).regulator.power = s.regulator.power ∧
      (buttonHandler button state time now s).quit = s.quit ∧
      (buttonHandler button state time now s).halt = s.halt) := by
  refine ⟨?_, ?_, ?_⟩
  · intro hb hs ht
    subst hb hs
    simp [buttonHandler, State.emit, ht]
  · intro hb hs ht
    subst hb hs
    simp [buttonHandler, State.emit, State.setPower, State.getPower, not_le.mpr ht]
  · intro h
    by_cases h1 : button = 1
    · subst h1
      cases state <;> simp [buttonHandler, State.emit]
    · by_cases h2 : button = 2
      · subst h2
        cases state
        · exact absurd ⟨rfl, rfl⟩ h
        · simp [buttonHandler]
      · simp [buttonHandler, h1, h2]

/-- A release of button 2 after exactly one second is a long press. -/
theorem buttonHandler_control_state_witness :
    (buttonHandler 2 false 1 5 exampleState).quit = true ∧
    (buttonHandler 2 false 1 5 exampleState).halt = true ∧
    (buttonHandler 2 false 1 5 exampleState).regulator.power = exampleState.regulator.power :=
  (buttonHandler_control_state 2 false 1 5 exampleState).1 rfl rfl (le_refl 1)

/-- Claim C6. Every call of `buttonHandler` resets the last-used timer, whatever the button, the
edge and the hold time: afterwards the timer is the reset one, it is running, and its elapsed
time read at the same instant is zero. -/
theorem buttonHandler_resets_timer (button : ℤ) (state : Bool) (time now : ℚ) (s : State) :
    (buttonHandler button state time now s).lastUsed = s.lastUsed.reset now ∧
    (buttonHandler button state time now s).lastUsed.isRunning = true ∧
    (buttonHandler button state time now s).lastUsed.getElapsed now = 0 := by
  have h : (buttonHandler button state time now s).lastUsed = s.lastUsed.reset now := by
    unfold buttonHandler
    simp only [State.emit, State.setPower]
    split_ifs <;> rfl
  refine ⟨h, ?_, ?_⟩
  · rw [h]; rfl
  · rw [h]; simp [Timer.reset, Timer.getElapsed]

/-! ## The inactivity test -/

theorem inactivityCheck_fire (s : State) (h : idleTooLong s) :
    inactivityCheck s =
      { s with regulator := { s.regulator with power := false }, lastUsed := s.lastUsed.stop,
               trace := s.trace ++ [Effect.setPower false, Effect.inactivityMsg] } := by
  have h' : s.autoPowerOff > 1 ∧ s.lastUsed.isRunning = true ∧
      s.lastUsed.getElapsed s.clock > s.autoPowerOff := h
  unfold inactivityCheck
  rw [if_pos h']
  simp [State.setPower, State.emit]

theorem inactivityCheck_skip (s : State) (h : ¬ idleTooLong s) : inactivityCheck s = s := by
  have h' : ¬ (s.autoPowerOff > 1 ∧ s.lastUsed.isRunning = true ∧
      s.lastUsed.getElapsed s.clock > s.autoPowerOff) := h
  unfold inactivityCheck
  rw [if_neg h']

theorem sleepRemainder_fields (next : ℚ) (s : State) :
    (sleepRemainder next s).regulator = s.regulator ∧
    (sleepRemainder next s).lastUsed = s.lastUsed ∧
    (sleepRemainder next s).quit = s.quit ∧
    (sleepRemainder next s).halt = s.halt ∧
    (sleepRemainder next s).autoPowerOff = s.autoPowerOff ∧
    (sleepRemainder next s).enableBoiler = s.enableBoiler ∧
    (sleepRemainder next s).config = s.config := by
  unfold sleepRemainder
  simp only [State.emit, State.elapse]
  split_ifs <;> simp

theorem atInactivityCheck_fields (interactive : Bool) (start : ℚ) (c : CycleIn) (s : State) :
    (atInactivityCheck interactive start c s).regulator = s.regulator ∧
    (atInactivityCheck interactive start c s).lastUsed = s.lastUsed ∧
    (atInactivityCheck interactive start c s).autoPowerOff = s.autoPowerOff ∧
    (atInactivityCheck interactive start c s).clock = s.clock + c.work + c.workLog := by
  unfold atInactivityCheck
  cases interactive <;> simp [State.emit, State.elapse]

/-- Claim C2. The inactivity branch of a cycle (power off, then stop the last-used timer) is
taken exactly when the threshold is above one second, the timer is running and the elapsed
idle time is strictly greater than the threshold: then the test switches the power flag off,
stops the timer and reports it, and otherwise it changes nothing. In a cycle without
notifications the power flag and the timer after the cycle are the switched-off ones in the
first case and the ones before the cycle in the second. With a threshold of at most one
second the branch is never taken. -/
theorem inactivity_branch_iff (interactive : Bool) (start next : ℚ) (c : CycleIn) (s : State) :
    (idleTooLong s →
      inactivityCheck s =
        { s with regulator := { s.regulator with power := false }, lastUsed := s.lastUsed.stop,
                 trace := s.trace ++ [Effect.setPower false, Effect.inactivityMsg] }) ∧
    (¬ idleTooLong s → inactivityCheck s = s) ∧
    (c.duringBody = [] → c.duringSleep = [] →
      (idleTooLong (atInactivityCheck interactive start c s) →
        (cycleBody interactive start next c s).regulator.power = false ∧
        (cycleBody interactive start next c s).lastUsed = s.lastUsed.stop) ∧
      (¬ idleTooLong (atInactivityCheck interactive start c s) →
        (cycleBody interactive start next c s).regulator = s.regulator ∧
        (cycleBody interactive start next c s).lastUsed = s.lastUsed)) ∧
    (s.autoPowerOff ≤ 1 → ¬ idleTooLong s ∧
      ¬ idleTooLong (atInactivityCheck interactive start c s)) := by
  refine ⟨inactivityCheck_fire s, inactivityCheck_skip s, ?_, ?_⟩
  · intro hb hs
    have hbody : cycleBody interactive start next c s =
        (sleepRemainder next
          ((inactivityCheck (atInactivityCheck interactive start c s)).elapse c.workIdle)).elapse
            c.late := by
      unfold cycleBody atInactivityCheck
      rw [hb, hs]
      cases interactive <;> rfl
    obtain ⟨hr, hl, _, _⟩ := atInactivityCheck_fields interactive start c s
    constructor
    · intro h
      rw [hbody, inactivityCheck_fire _ h]
      obtain ⟨h1, h2, _⟩ := sleepRemainder_fields next
        (State.elapse { atInactivityCheck interactive start c s with
          regulator := { (atInactivityCheck interactive start c s).regulator with power := false },
          lastUsed := (atInactivityCheck interactive start c s).lastUsed.stop,
          trace := (atInactivityCheck interactive start c s).trace ++
            [Effect.setPower false, Effect.inactivityMsg] } c.workIdle)
      simp only [State.elapse] at h1 h2 ⊢
      rw [h1, h2, hl]
      exact ⟨rfl, rfl⟩
    · intro h
      rw [hbody, inactivityCheck_skip _ h]
      obtain ⟨h1, h2, _⟩ := sleepRemainder_fields next
        ((atInactivityCheck interactive start c s).elapse c.workIdle)
      simp only [State.elapse] at h1 h2 ⊢
      rw [h1, h2, hl, hr]
      exact ⟨rfl, rfl⟩
  · intro h
    obtain ⟨_, _, ha, _⟩ := atInactivityCheck_fields interactive start c s
    constructor
    · intro hi
      exact absurd hi.1 (not_lt.mpr h)
    · intro hi
      have := hi.1
      rw [ha] at this
      exact absurd this (not_lt.mpr h)

/-! ## The start-up of `runController` -/

theorem startup_ready (interactive : Bool) (w : World) (s : State) (config : Config)
    (hb : w.button2 = false) (hl : w.logOpens = true)
    (hc : loadConfig w.configFile s.config = (true, config)) :
    startup interactive w s = (none, configured interactive config s) := by
  unfold startup
  simp only [hb, hl]
  cases interactive <;> simp [configured, State.emit, hc]

theorem startup_ready_inv (interactive : Bool) (w : World) (s s1 : State)
    (h : startup interactive w s = (none, s1)) :
    w.button2 = false ∧ w.logOpens = true ∧
      ∃ config, loadConfig w.configFile s.config = (true, config) ∧
        s1 = configured interactive config s := by
  cases hb : w.button2
  · cases hl : w.logOpens
    · simp [startup, hb, hl] at h
    · cases hc : loadConfig w.configFile s.config with
      | mk ok config =>
        cases ok
        · simp [startup, hb, hl, State.emit, hc] at h
        · rw [startup_ready interactive w s config hb hl hc] at h
          refine ⟨rfl, rfl, config, rfl, ?_⟩
          simpa using h.symm
  · simp [startup, hb] at h

/-- Claim C5. Start-up failures are fatal before any actuator activity: when button 2 is down
at entry, or the log file cannot be opened, or the configuration file cannot be opened,
`runController` returns 1, the regulator is untouched and no call into the regulator has been
issued; when button 2 is down the only effect is the abort message, so the log file has not
been opened and the configuration has not been loaded. -/
theorem startup_failure_is_fatal (interactive : Bool) (w : World) (s : State) :
    (w.button2 = true →
      runController interactive w s = (some 1, s.emit Effect.abortMsg)) ∧
    (w.button2 = false → w.logOpens = false →
      runController interactive w s =
        (some 1, ((s.emit Effect.displayOpen).emit (Effect.openLog false)).emit
          Effect.logOpenError)) ∧
    (w.button2 = false → w.logOpens = true → w.configFile = none →
      runController interactive w s =
        (some 1, (((s.emit Effect.displayOpen).emit (Effect.openLog true)).emit
          (Effect.loadConfig false)).emit Effect.configError)) ∧
    (w.button2 = true ∨ w.logOpens = false ∨ w.configFile = none →
      (runController interactive w s).1 = some 1 ∧
      (runController interactive w s).2.regulator = s.regulator ∧
      ∃ new, (runController interactive w s).2.trace = s.trace ++ new ∧
        ∀ e ∈ new, e.isRegulatorCall = false) := by
  have h1 : w.button2 = true →
      runController interactive w s = (some 1, s.emit Effect.abortMsg) := by
    intro h
    simp [runController, startup, h]
  have h2 : w.button2 = false → w.logOpens = false →
      runController interactive w s =
        (some 1, ((s.emit Effect.displayOpen).emit (Effect.openLog false)).emit
          Effect.logOpenError) := by
    intro hb hl
    simp [runController, startup, hb, hl]
  have h3 : w.button2 = false → w.logOpens = true → w.configFile = none →
      runController interactive w s =
        (some 1, (((s.emit Effect.displayOpen).emit (Effect.openLog true)).emit
          (Effect.loadConfig false)).emit Effect.configError) := by
    intro hb hl hc
    simp [runController, startup, hb, hl, hc, loadConfig, State.emit]
  refine ⟨h1, h2, h3, ?_⟩
  intro h
  by_cases hb : w.button2 = true
  · rw [h1 hb]
    exact ⟨rfl, rfl, [Effect.abortMsg], rfl, by simp [Effect.isRegulatorCall]⟩
  · have hb' : w.button2 = false := by simpa using hb
    by_cases hl : w.logOpens = true
    · have hc : w.configFile = none := by
        rcases h with h | h | h
        · exact absurd h hb
        · rw [hl] at h; exact absurd h (by decide)
        · exact h
      rw [h3 hb' hl hc]
      refine ⟨rfl, rfl, [Effect.displayOpen, Effect.openLog true, Effect.loadConfig false,
        Effect.configError], by simp [State.emit], by simp [Effect.isRegulatorCall]⟩
    · have hl' : w.logOpens = false := by simpa using hl
      rw [h2 hb' hl']
      refine ⟨rfl, rfl, [Effect.displayOpen, Effect.openLog false, Effect.logOpenError],
        by simp [State.emit], by simp [Effect.isRegulatorCall]⟩

/-- With button 2 held down at entry the controller aborts at once. -/
theorem startup_failure_is_fatal_witness :
    runController false { button2 := true, logOpens := true, configFile := none, cycles := [] }
      exampleState = (some 1, exampleState.emit Effect.abortMsg) :=
  (startup_failure_is_fatal false
    { button2 := true, logOpens := true, configFile := none, cycles := [] } exampleState).1 rfl

/-! ## The trace only grows; the quit and halt flags are never cleared -/

theorem emit_trace_grows (s : State) (e : Effect) : s.trace <+: (s.emit e).trace :=
  List.prefix_append _ _

theorem setPower_trace_grows (s : State) (b : Bool) : s.trace <+: (s.setPower b).trace :=
  List.prefix_append _ _

theorem signalHandler_trace_grows (n : ℤ) (s : State) :
    s.trace <+: (signalHandler n s).trace := by
  unfold signalHandler
  split_ifs
  · exact List.prefix_append _ _
  · exact List.prefix_append _ _
  · exact List.prefix_refl _

theorem buttonHandler_trace_grows (b : ℤ) (st : Bool) (t now : ℚ) (s : State) :
    s.trace <+: (buttonHandler b st t now s).trace := by
  unfold buttonHandler
  simp only [State.emit, State.setPower]
  split_ifs
  · exact List.prefix_append _ _
  · exact List.prefix_refl _
  · exact List.prefix_refl _
  · exact List.prefix_append _ _
  · rw [List.append_assoc]; exact List.prefix_append _ _
  · exact List.prefix_refl _

theorem handle_trace_grows (a : Async) (s : State) : s.trace <+: (a.handle s).trace := by
  cases a with
  | button b st t now => exact buttonHandler_trace_grows b st t now s
  | signal n => exact signalHandler_trace_grows n s

theorem handleAll_nil (s : State) : handleAll [] s = s := rfl

theorem handleAll_cons (a : Async) (as : List Async) (s : State) :
    handleAll (a :: as) s = handleAll as (a.handle s) := rfl

theorem handleAll_append (as bs : List Async) (s : State) :
    handleAll (as ++ bs) s = handleAll bs (handleAll as s) := by
  simp [handleAll, List.foldl_append]

theorem handleAll_trace_grows (as : List Async) (s : State) :
    s.trace <+: (handleAll as s).trace := by
  induction as generalizing s with
  | nil => exact List.prefix_refl _
  | cons a as ih =>
    rw [handleAll_cons]
    exact (handle_trace_grows a s).trans (ih _)

theorem inactivityCheck_trace_grows (s : State) : s.trace <+: (inactivityCheck s).trace := by
  by_cases h : idleTooLong s
  · rw [inactivityCheck_fire s h]; exact List.prefix_append _ _
  · rw [inactivityCheck_skip s h]

theorem sleepRemainder_trace_grows (next : ℚ) (s : State) :
    s.trace <+: (sleepRemainder next s).trace := by
  unfold sleepRemainder
  simp only [State.emit, State.elapse]
  split_ifs
  · exact List.prefix_append _ _
  · exact List.prefix_refl _

theorem cycleBody_trace_grows (interactive : Bool) (start next : ℚ) (c : CycleIn) (s : State) :
    s.trace <+: (cycleBody interactive start next c s).trace := by
  unfold cycleBody
  simp only [State.elapse]
  refine List.IsPrefix.trans ?_ (handleAll_trace_grows _ _)
  refine List.IsPrefix.trans ?_ (sleepRemainder_trace_grows _ _)
  refine List.IsPrefix.trans ?_ (inactivityCheck_trace_grows _)
  refine List.IsPrefix.trans ?_ (handleAll_trace_grows _ _)
  cases interactive
  · simp only [State.emit, Bool.false_eq_true, if_false]
    rw [List.append_assoc]; exact List.prefix_append _ _
  · simp only [State.emit, if_true]
    rw [List.append_assoc, List.append_assoc]; exact List.prefix_append _ _

theorem controlLoop_trace_grows (interactive : Bool) (start : ℚ) (cs : List CycleIn) :
    ∀ (next : ℚ) (s : State), s.trace <+: (controlLoop interactive start next cs s).2.trace := by
  induction cs with
  | nil => intro next s; exact List.prefix_refl _
  | cons c cs ih =>
    intro next s
    unfold controlLoop
    simp only
    split_ifs
    · exact List.prefix_refl _
    · exact List.prefix_refl _
    · exact (cycleBody_trace_grows _ _ _ _ _).trans (ih _ _)

theorem shutdown_trace (interactive : Bool) (s : State) :
    (shutdown interactive s).trace =
      s.trace ++ (if interactive = true then [Effect.nonblock false] else []) ++
        [Effect.setPower false] ++ (if s.halt = true then [Effect.systemHalt] else []) := by
  unfold shutdown
  cases interactive <;> cases h : s.halt <;> simp [State.emit, State.setPower, h]

theorem shutdown_power (interactive : Bool) (s : State) :
    (shutdown interactive s).regulator.power = false := by
  unfold shutdown
  cases interactive <;> cases h : s.halt <;> simp [State.emit, State.setPower, h]

theorem signalHandler_quit (n : ℤ) (s : State) (h : s.quit = true) :
    (signalHandler n s).quit = true := by
  unfold signalHandler
  split_ifs <;> simp [State.emit, h]

theorem signalHandler_halt (n : ℤ) (s : State) : (signalHandler n s).halt = s.halt := by
  unfold signalHandler
  split_ifs <;> simp [State.emit]

theorem buttonHandler_quit (b : ℤ) (st : Bool) (t now : ℚ) (s : State) (h : s.quit = true) :
    (buttonHandler b st t now s).quit = true := by
  unfold buttonHandler
  simp only [State.emit, State.setPower]
  split_ifs <;> simp [h]

theorem buttonHandler_halt (b : ℤ) (st : Bool) (t now : ℚ) (s : State) (h : s.halt = true) :
    (buttonHandler b st t now s).halt = true := by
  unfold buttonHandler
  simp only [State.emit, State.setPower]
  split_ifs <;> simp [h]

theorem handle_quit (a : Async) (s : State) (h : s.quit = true) : (a.handle s).quit = true := by
  cases a with
  | button b st t now => exact buttonHandler_quit b st t now s h
  | signal n => exact signalHandler_quit n s h

theorem handle_halt (a : Async) (s : State) (h : s.halt = true) : (a.handle s).halt = true := by
  cases a with
  | button b st t now => exact buttonHandler_halt b st t now s h
  | signal n => exact (signalHandler_halt n s).trans h

theorem handleAll_quit (as : List Async) (s : State) (h : s.quit = true) :
    (handleAll as s).quit = true := by
  induction as generalizing s with
  | nil => exact h
  | cons a as ih => rw [handleAll_cons]; exact ih _ (handle_quit a s h)

theorem handleAll_halt (as : List Async) (s : State) (h : s.halt = true) :
    (handleAll as s).halt = true := by
  induction as generalizing s with
  | nil => exact h
  | cons a as ih => rw [handleAll_cons]; exact ih _ (handle_halt a s h)

theorem buttonHandler_control_state_aux (t now : ℚ) (ht : 1 ≤ t) (s : State) :
    (buttonHandler 2 false t now s).quit = true ∧ (buttonHandler 2 false t now s).halt = true := by
  simp [buttonHandler, State.emit, ht]

/-- A long press of button 2 among the notifications leaves the quit and halt flags set. -/
theorem handleAll_long_press (as : List Async) (t now : ℚ) (ht : 1 ≤ t)
    (hmem : Async.button 2 false t now ∈ as) (s : State) :
    (handleAll as s).quit = true ∧ (handleAll as s).halt = true := by
  obtain ⟨l, r, rfl⟩ := List.append_of_mem hmem
  rw [handleAll_append, handleAll_cons]
  have hq := (buttonHandler_control_state_aux t now ht (handleAll l s))
  exact ⟨handleAll_quit _ _ hq.1, handleAll_halt _ _ hq.2⟩

/-! ## Leaving the control loop -/

theorem cycleBody_eq (interactive : Bool) (start next : ℚ) (c : CycleIn) (s : State) :
    cycleBody interactive start next c s =
      (handleAll c.duringSleep (sleepRemainder next
        ((inactivityCheck (handleAll c.duringBody
          (atInactivityCheck interactive start c s))).elapse c.workIdle))).elapse c.late := by
  unfold cycleBody atInactivityCheck
  cases interactive <;> rfl

theorem inactivityCheck_flags (s : State) :
    (inactivityCheck s).quit = s.quit ∧ (inactivityCheck s).halt = s.halt ∧
    (inactivityCheck s).clock = s.clock ∧ (inactivityCheck s).autoPowerOff = s.autoPowerOff := by
  by_cases h : idleTooLong s
  · rw [inactivityCheck_fire s h]; exact ⟨rfl, rfl, rfl, rfl⟩
  · rw [inactivityCheck_skip s h]; exact ⟨rfl, rfl, rfl, rfl⟩

/-- A long press of button 2 handled during a cycle leaves the quit and halt flags set at the
end of the cycle. -/
theorem cycleBody_long_press (interactive : Bool) (start next : ℚ) (c : CycleIn) (s : State)
    (t now : ℚ) (ht : 1 ≤ t)
    (hmem : Async.button 2 false t now ∈ c.duringBody ++ c.duringSleep) :
    (cycleBody interactive start next c s).quit = true ∧
    (cycleBody interactive start next c s).halt = true := by
  rw [cycleBody_eq]
  rcases List.mem_append.mp hmem with h | h
  · obtain ⟨hq, hh⟩ := handleAll_long_press c.duringBody t now ht h
      (atInactivityCheck interactive start c s)
    obtain ⟨iq, ih, _, _⟩ := inactivityCheck_flags
      (handleAll c.duringBody (atInactivityCheck interactive start c s))
    obtain ⟨_, _, sq, sh, _⟩ := sleepRemainder_fields next
      ((inactivityCheck (handleAll c.duringBody
        (atInactivityCheck interactive start c s))).elapse c.workIdle)
    constructor
    · apply handleAll_quit
      rw [sq]; show (inactivityCheck _).quit = true
      rw [iq]; exact hq
    · apply handleAll_halt
      rw [sh]; show (inactivityCheck _).halt = true
      rw [ih]; exact hh
  · exact handleAll_long_press c.duringSleep t now ht h _

theorem controlLoop_cons_exit (interactive : Bool) (start next : ℚ) (c : CycleIn)
    (cs : List CycleIn) (s : State) (h : exitTest interactive c s) :
    controlLoop interactive start next (c :: cs) s = (true, s) := by
  unfold controlLoop
  rcases h with h | ⟨h1, h2⟩
  · simp [h]
  · simp [h1, h2]

theorem controlLoop_cons_continue (interactive : Bool) (start next : ℚ) (c : CycleIn)
    (cs : List CycleIn) (s : State) (h : ¬ exitTest interactive c s) :
    controlLoop interactive start next (c :: cs) s =
      controlLoop interactive start (next + timeStepGUI) cs
        (cycleBody interactive start (next + timeStepGUI) c s) := by
  have hq : s.quit = false := by
    cases hs : s.quit
    · rfl
    · exact absurd (Or.inl hs) h
  have hk : (interactive && c.kbhit) = false := by
    cases hi : interactive
    · rfl
    · cases hc : c.kbhit
      · rfl
      · exact absurd (Or.inr ⟨hi, hc⟩) h
  rw [controlLoop]
  simp [hq, hk]

theorem controlLoop_left_iff (interactive : Bool) (start : ℚ) (cycles : List CycleIn) :
    ∀ (next : ℚ) (s s' : State),
      controlLoop interactive start next cycles s = (true, s') ↔
        ∃ k c, cycles[k]? = some c ∧
          s' = runBodies interactive start next (cycles.take k) s ∧
          exitTest interactive c s' ∧
          ∀ j c', j < k → cycles[j]? = some c' →
            ¬ exitTest interactive c' (runBodies interactive start next (cycles.take j) s) := by
  induction cycles with
  | nil =>
    intro next s s'
    simp [controlLoop]
  | cons c cs ih =>
    intro next s s'
    by_cases h : exitTest interactive c s
    · rw [controlLoop_cons_exit _ _ _ _ _ _ h]
      constructor
      · intro he
        have hs : s = s' := by simpa using he
        subst hs
        exact ⟨0, c, by simp, rfl, h, by intro j c' hj; omega⟩
      · rintro ⟨k, c1, hk, hs', _, hbefore⟩
        cases k with
        | zero =>
          have : s' = s := by simpa [runBodies] using hs'
          rw [this]
        | succ k =>
          exact absurd h (hbefore 0 c (Nat.succ_pos k) (by simp))
    · rw [controlLoop_cons_continue _ _ _ _ _ _ h, ih]
      constructor
      · rintro ⟨k, c1, hk, hs', he, hbefore⟩
        refine ⟨k + 1, c1, by simpa using hk, by simpa [runBodies] using hs', he, ?_⟩
        intro j c' hj hc'
        cases j with
        | zero =>
          have : c' = c := by simpa using hc'.symm
          subst this
          simpa [runBodies] using h
        | succ j =>
          have := hbefore j c' (by omega) (by simpa using hc')
          simpa [runBodies] using this
      · rintro ⟨k, c1, hk, hs', he, hbefore⟩
        cases k with
        | zero =>
          have hc : c1 = c := by simpa using hk.symm
          have hs : s' = s := by simpa [runBodies] using hs'
          subst hc hs
          exact absurd he h
        | succ k =>
          refine ⟨k, c1, by simpa using hk, by simpa [runBodies] using hs', he, ?_⟩
          intro j c' hj hc'
          have := hbefore (j + 1) c' (by omega) (by simpa using hc')
          simpa [runBodies] using this

theorem controlLoop_append (interactive : Bool) (start : ℚ) (pre rest : List CycleIn) :
    ∀ (next : ℚ) (s sk : State),
      controlLoop interactive start next pre s = (false, sk) →
      controlLoop interactive start next (pre ++ rest) s =
        controlLoop interactive start (next + pre.length * timeStepGUI) rest sk := by
  induction pre with
  | nil =>
    intro next s sk h
    have : s = sk := by simpa [controlLoop] using h
    subst this
    simp
  | cons c cs ih =>
    intro next s sk h
    by_cases he : exitTest interactive c s
    · rw [controlLoop_cons_exit _ _ _ _ _ _ he] at h
      exact absurd (congrArg Prod.fst h) (by simp)
    · rw [controlLoop_cons_continue _ _ _ _ _ _ he] at h
      rw [List.cons_append, controlLoop_cons_continue _ _ _ _ _ _ he, ih _ _ _ h]
      congr 1
      simp only [List.length_cons]
      push_cast
      ring

theorem controlLoop_split (interactive : Bool) (start : ℚ) (pre rest : List CycleIn) :
    ∀ (next : ℚ) (s sk : State),
      controlLoop interactive start next (pre ++ rest) s = (false, sk) →
      ∃ sp, controlLoop interactive start next pre s = (false, sp) := by
  induction pre with
  | nil => intro next s sk _; exact ⟨s, rfl⟩
  | cons c cs ih =>
    intro next s sk h
    by_cases he : exitTest interactive c s
    · rw [List.cons_append, controlLoop_cons_exit _ _ _ _ _ _ he] at h
      exact absurd (congrArg Prod.fst h) (by simp)
    · rw [List.cons_append, controlLoop_cons_continue _ _ _ _ _ _ he] at h
      rw [controlLoop_cons_continue _ _ _ _ _ _ he]
      exact ih _ _ _ h

theorem controlLoop_running_eq (interactive : Bool) (start : ℚ) (cs : List CycleIn) :
    ∀ (next : ℚ) (s sk : State),
      controlLoop interactive start next cs s = (false, sk) →
      sk = runBodies interactive start next cs s := by
  induction cs with
  | nil => intro next s sk h; simpa [controlLoop, runBodies] using h.symm
  | cons c cs ih =>
    intro next s sk h
    by_cases he : exitTest interactive c s
    · rw [controlLoop_cons_exit _ _ _ _ _ _ he] at h
      exact absurd (congrArg Prod.fst h) (by simp)
    · rw [controlLoop_cons_continue _ _ _ _ _ _ he] at h
      simpa [runBodies] using ih _ _ _ h

theorem runController_of_startup (interactive : Bool) (w : World) (s s1 : State)
    (h : startup interactive w s = (none, s1)) :
    runController interactive w s =
      match controlLoop interactive s1.clock s1.clock w.cycles (loopEntry s1) with
      | (false, s') => (none, s')
      | (true, s') => (some 0, shutdown interactive s') := by
  unfold runController
  rw [h]
  rfl

/-- Claim C1. For a run of `runController` that enters the control loop: the loop is left
exactly at the first loop test (the start of a cycle) at which the quit flag is set or the mode
is interactive and a key press is pending; when it is left, the function issues
`setPower(false)`, then the system halt exactly when the halt flag is set, and returns 0; while
it is not left the function does not return. A release of button 2 held for at least one
second that is handled during a cycle makes the loop leave at the test that starts the next
cycle, in the state in which the cycle ended: no log line and no inactivity test follow. -/
theorem control_loop_exit (interactive : Bool) :
    (∀ (start next : ℚ) (cycles : List CycleIn) (s s' : State),
      controlLoop interactive start next cycles s = (true, s') ↔
        ∃ k c, cycles[k]? = some c ∧
          s' = runBodies interactive start next (cycles.take k) s ∧
          exitTest interactive c s' ∧
          ∀ j c', j < k → cycles[j]? = some c' →
            ¬ exitTest interactive c' (runBodies interactive start next (cycles.take j) s)) ∧
    (∀ (w : World) (s s1 s' : State), startup interactive w s = (none, s1) →
      controlLoop interactive s1.clock s1.clock w.cycles (loopEntry s1) = (true, s') →
        runController interactive w s = (some 0, shutdown interactive s') ∧
        (shutdown interactive s').trace =
          s'.trace ++ (if interactive = true then [Effect.nonblock false] else []) ++
            [Effect.setPower false] ++ (if s'.halt = true then [Effect.systemHalt] else []) ∧
        (shutdown interactive s').regulator.power = false) ∧
    (∀ (w : World) (s s1 s' : State), startup interactive w s = (none, s1) →
      controlLoop interactive s1.clock s1.clock w.cycles (loopEntry s1) = (false, s') →
        runController interactive w s = (none, s')) ∧
    (∀ (start next : ℚ) (pre : List CycleIn) (c c' : CycleIn) (post : List CycleIn)
        (s sk : State) (t now : ℚ),
      controlLoop interactive start next (pre ++ [c]) s = (false, sk) →
      Async.button 2 false t now ∈ c.duringBody ++ c.duringSleep → 1 ≤ t →
        controlLoop interactive start next (pre ++ c :: c' :: post) s = (true, sk) ∧
        sk.quit = true ∧ sk.halt = true) := by
  refine ⟨?_, ?_, ?_, ?_⟩
  · intro start next cycles s s'
    exact controlLoop_left_iff interactive start cycles next s s'
  · intro w s s1 s' hs hl
    refine ⟨?_, shutdown_trace interactive s', shutdown_power interactive s'⟩
    rw [runController_of_startup interactive w s s1 hs, hl]
  · intro w s s1 s' hs hl
    rw [runController_of_startup interactive w s s1 hs, hl]
  · intro start next pre c c' post s sk t now hrun hmem ht
    obtain ⟨sp, hsp⟩ := controlLoop_split interactive start pre [c] next s sk hrun
    rw [controlLoop_append interactive start pre [c] next s sp hsp] at hrun
    have hne : ¬ exitTest interactive c sp := by
      intro he
      rw [controlLoop_cons_exit _ _ _ _ _ _ he] at hrun
      exact absurd (congrArg Prod.fst hrun) (by simp)
    rw [controlLoop_cons_continue _ _ _ _ _ _ hne] at hrun
    have hsk : sk = cycleBody interactive start
        (next + pre.length * timeStepGUI + timeStepGUI) c sp := by
      simpa [controlLoop] using hrun.symm
    obtain ⟨hq, hh⟩ := cycleBody_long_press interactive start
      (next + pre.length * timeStepGUI + timeStepGUI) c sp t now ht hmem
    rw [← hsk] at hq hh
    refine ⟨?_, hq, hh⟩
    rw [controlLoop_append interactive start pre (c :: c' :: post) next s sp hsp,
      controlLoop_cons_continue _ _ _ _ _ _ hne, ← hsk]
    exact controlLoop_cons_exit _ _ _ _ _ _ (Or.inl hq)

/-! ## The inactivity test over a run of the loop -/

theorem emit_view (s : State) (e : Effect) (h1 : e ≠ Effect.inactivityMsg)
    (h2 : e ≠ Effect.setPower false) : watchdogView (s.emit e) = watchdogView s := by
  simp [watchdogView, fires, powerOffs, State.emit, List.count_append, List.count_cons,
    h1, h2]

theorem elapse_view (s : State) (dt : ℚ) : watchdogView (s.elapse dt) = watchdogView s := rfl

theorem signalHandler_view (n : ℤ) (s : State) :
    watchdogView (signalHandler n s) = watchdogView s ∧ (signalHandler n s).clock = s.clock := by
  unfold signalHandler
  split_ifs
  · exact ⟨emit_view s _ (by simp) (by simp), rfl⟩
  · exact ⟨emit_view s _ (by simp) (by simp), rfl⟩
  · exact ⟨rfl, rfl⟩

theorem handleAll_view (as : List Async) (h : ∀ a ∈ as, a.isButton = false) (s : State) :
    watchdogView (handleAll as s) = watchdogView s ∧ (handleAll as s).clock = s.clock := by
  induction as generalizing s with
  | nil => exact ⟨rfl, rfl⟩
  | cons a as ih =>
    rw [handleAll_cons]
    have ha := h a (List.mem_cons_self a as)
    obtain ⟨h1, h2⟩ := ih (fun b hb => h b (List.mem_cons_of_mem a hb)) (a.handle s)
    cases a with
    | button b st t now => simp [Async.isButton] at ha
    | signal n =>
      obtain ⟨h3, h4⟩ := signalHandler_view n s
      exact ⟨h1.trans h3, h2.trans h4⟩

theorem sleepRemainder_view (next : ℚ) (s : State) :
    watchdogView (sleepRemainder next s) = watchdogView s := by
  unfold sleepRemainder
  simp only
  split_ifs
  · rw [elapse_view]; exact emit_view s _ (by simp) (by simp)
  · rfl

theorem atInactivityCheck_view (interactive : Bool) (start : ℚ) (c : CycleIn) (s : State) :
    watchdogView (atInactivityCheck interactive start c s) = watchdogView s := by
  unfold atInactivityCheck
  cases interactive
  · simp only [Bool.false_eq_true, if_false]
    rw [elapse_view, emit_view _ _ (by simp) (by simp), emit_view _ _ (by simp) (by simp),
      elapse_view]
  · simp only [if_true]
    rw [elapse_view, emit_view _ _ (by simp) (by simp), emit_view _ _ (by simp) (by simp),
      emit_view _ _ (by simp) (by simp), elapse_view]

theorem inactivityCheck_fire_view (s : State) (h : idleTooLong s) :
    watchdogView (inactivityCheck s) =
      (s.lastUsed.stop, s.autoPowerOff, false, fires s + 1, powerOffs s + 1) := by
  rw [inactivityCheck_fire s h]
  simp [watchdogView, fires, powerOffs, List.count_append, List.count_cons]

theorem idleTooLong_congr (s x : State) (hv : watchdogView x = watchdogView s) :
    idleTooLong x ↔
      s.autoPowerOff > 1 ∧ s.lastUsed.running = true ∧
        x.clock - s.lastUsed.stamp > s.autoPowerOff := by
  have h1 : x.lastUsed = s.lastUsed := congrArg Prod.fst hv
  have h2 : x.autoPowerOff = s.autoPowerOff := congrArg (fun v => v.2.1) hv
  unfold idleTooLong
  rw [h1, h2]

/-- One cycle without a call of `buttonHandler`: the inactivity branch is taken or not,
according to the timer and threshold before the cycle and the clock at the test. -/
theorem cycleBody_view (interactive : Bool) (start next : ℚ) (c : CycleIn) (s : State)
    (hc : ∀ a ∈ c.duringBody ++ c.duringSleep, a.isButton = false) :
    (s.autoPowerOff > 1 ∧ s.lastUsed.running = true ∧
        (atInactivityCheck interactive start c s).clock - s.lastUsed.stamp > s.autoPowerOff →
      watchdogView (cycleBody interactive start next c s) =
        (s.lastUsed.stop, s.autoPowerOff, false, fires s + 1, powerOffs s + 1)) ∧
    (¬ (s.autoPowerOff > 1 ∧ s.lastUsed.running = true ∧
        (atInactivityCheck interactive start c s).clock - s.lastUsed.stamp > s.autoPowerOff) →
      watchdogView (cycleBody interactive start next c s) = watchdogView s) := by
  have hb : ∀ a ∈ c.duringBody, a.isButton = false :=
    fun a ha => hc a (List.mem_append_left _ ha)
  have hs : ∀ a ∈ c.duringSleep, a.isButton = false :=
    fun a ha => hc a (List.mem_append_right _ ha)
  obtain ⟨hx, hxc⟩ := handleAll_view c.duringBody hb (atInactivityCheck interactive start c s)
  have hxs := hx.trans (atInactivityCheck_view interactive start c s)
  have hiff := idleTooLong_congr s _ hxs
  rw [hxc] at hiff
  have htail : watchdogView (cycleBody interactive start next c s) =
      watchdogView (inactivityCheck (handleAll c.duringBody
        (atInactivityCheck interactive start c s))) := by
    rw [cycleBody_eq, elapse_view, (handleAll_view c.duringSleep hs _).1, sleepRemainder_view,
      elapse_view]
  constructor
  · intro h
    rw [htail, inactivityCheck_fire_view _ (hiff.mpr h)]
    have h1 : (handleAll c.duringBody (atInactivityCheck interactive start c s)).lastUsed =
        s.lastUsed := congrArg Prod.fst hxs
    have h2 : (handleAll c.duringBody (atInactivityCheck interactive start c s)).autoPowerOff =
        s.autoPowerOff := congrArg (fun v => v.2.1) hxs
    have h3 : fires (handleAll c.duringBody (atInactivityCheck interactive start c s)) =
        fires s := congrArg (fun v => v.2.2.2.1) hxs
    have h4 : powerOffs (handleAll c.duringBody (atInactivityCheck interactive start c s)) =
        powerOffs s := congrArg (fun v => v.2.2.2.2) hxs
    rw [h1, h2, h3, h4]
  · intro h
    rw [htail, inactivityCheck_skip _ (fun hi => h (hiff.mp hi))]
    exact hxs

theorem noButtons_cons (c : CycleIn) (cs : List CycleIn) (h : noButtons (c :: cs)) :
    (∀ a ∈ c.duringBody ++ c.duringSleep, a.isButton = false) ∧ noButtons cs :=
  ⟨h c (List.mem_cons_self c cs), fun c' hc' => h c' (List.mem_cons_of_mem c hc')⟩

theorem noButtons_append (as bs : List CycleIn) (h : noButtons (as ++ bs)) :
    noButtons as ∧ noButtons bs :=
  ⟨fun c hc => h c (List.mem_append_left _ hc), fun c hc => h c (List.mem_append_right _ hc)⟩

/-- While the timer is stopped and no call of `buttonHandler` arrives, the loop never takes
the inactivity branch. -/
theorem controlLoop_stopped_view (interactive : Bool) (start : ℚ) (cycles : List CycleIn) :
    ∀ (next : ℚ) (s : State), s.lastUsed.running = false → noButtons cycles →
      watchdogView (controlLoop interactive start next cycles s).2 = watchdogView s := by
  induction cycles with
  | nil => intro next s _ _; rfl
  | cons c cs ih =>
    intro next s hr hn
    obtain ⟨hc, hcs⟩ := noButtons_cons c cs hn
    by_cases he : exitTest interactive c s
    · rw [controlLoop_cons_exit _ _ _ _ _ _ he]
    · rw [controlLoop_cons_continue _ _ _ _ _ _ he]
      have hv := (cycleBody_view interactive start (next + timeStepGUI) c s hc).2
        (by rw [hr]; simp)
      have hr' : (cycleBody interactive start (next + timeStepGUI) c s).lastUsed.running =
          false := by
        have : (cycleBody interactive start (next + timeStepGUI) c s).lastUsed = s.lastUsed :=
          congrArg Prod.fst hv
        rw [this, hr]
      exact (ih _ _ hr' hcs).trans hv

/-- While the idle time at every inactivity test stays within the threshold and no call of
`buttonHandler` arrives, the cycles do not take the inactivity branch. -/
theorem runBodies_quiet_view (interactive : Bool) (start : ℚ) (pre : List CycleIn) :
    ∀ (next : ℚ) (s : State), noButtons pre →
      (∀ j c', pre[j]? = some c' →
        (atInactivityCheck interactive start c'
          (runBodies interactive start next (pre.take j) s)).clock - s.lastUsed.stamp ≤
            s.autoPowerOff) →
      watchdogView (runBodies interactive start next pre s) = watchdogView s := by
  induction pre with
  | nil => intro next s _ _; rfl
  | cons c cs ih =>
    intro next s hn hq
    obtain ⟨hc, hcs⟩ := noButtons_cons c cs hn
    have h0 := hq 0 c (by simp)
    simp only [List.take_zero, runBodies] at h0
    have hv := (cycleBody_view interactive start (next + timeStepGUI) c s hc).2
      (fun h => absurd h.2.2 (not_lt.mpr h0))
    have hl : (cycleBody interactive start (next + timeStepGUI) c s).lastUsed = s.lastUsed :=
      congrArg Prod.fst hv
    have ha : (cycleBody interactive start (next + timeStepGUI) c s).autoPowerOff =
        s.autoPowerOff := congrArg (fun v => v.2.1) hv
    simp only [runBodies]
    refine (ih _ _ hcs ?_).trans hv
    intro j c' hj
    have := hq (j + 1) c' (by simpa using hj)
    simp only [List.take_succ_cons, runBodies] at this
    rw [hl, ha]
    exact this

theorem runBodies_append (interactive : Bool) (start : ℚ) (pre rest : List CycleIn) :
    ∀ (next : ℚ) (s : State),
      runBodies interactive start next (pre ++ rest) s =
        runBodies interactive start (next + pre.length * timeStepGUI) rest
          (runBodies interactive start next pre s) := by
  induction pre with
  | nil => intro next s; simp [runBodies]
  | cons c cs ih =>
    intro next s
    rw [List.cons_append]
    simp only [runBodies, List.length_cons]
    rw [ih]
    congr 1
    push_cast
    ring

/-- Claim C3. Once the inactivity branch has fired it does not fire again until
`buttonHandler` is called: firing stops the timer and counts once; a cycle without a call of
`buttonHandler` fires at most once and, when it fires, ends with the timer stopped; and as long
as the timer is stopped and no call of `buttonHandler` arrives, a run of the loop neither fires
nor switches the power off, and the timer stays stopped. With a threshold of 60 s (`autoPowerOff = 1` in the
configuration), the timer running and no call of `buttonHandler` at all, a loop that runs
through the first cycle whose idle time at the test exceeds 60 s does not fire before that
cycle, fires in it, leaves the power off, and has fired and switched off exactly once however
long it goes on. -/
theorem watchdog_fires_once (interactive : Bool) (start : ℚ) :
    (∀ s : State, idleTooLong s →
      (inactivityCheck s).lastUsed.running = false ∧
      fires (inactivityCheck s) = fires s + 1 ∧
      powerOffs (inactivityCheck s) = powerOffs s + 1) ∧
    (∀ (next : ℚ) (c : CycleIn) (s : State),
      (∀ a ∈ c.duringBody ++ c.duringSleep, a.isButton = false) →
        fires (cycleBody interactive start next c s) ≤ fires s + 1 ∧
        (fires (cycleBody interactive start next c s) = fires s + 1 →
          (cycleBody interactive start next c s).lastUsed.running = false)) ∧
    (∀ (next : ℚ) (cycles : List CycleIn) (s : State),
      s.lastUsed.running = false → noButtons cycles →
        fires (controlLoop interactive start next cycles s).2 = fires s ∧
        powerOffs (controlLoop interactive start next cycles s).2 = powerOffs s ∧
        (controlLoop interactive start next cycles s).2.lastUsed.running = false) ∧
    (∀ (w : World) (s s1 : State), startup interactive w s = (none, s1) →
      (loadConfig w.configFile s.config).2.get "autoPowerOff".toList = 1 →
        (loopEntry s1).autoPowerOff = 60 ∧ (loopEntry s1).lastUsed = s.lastUsed) ∧
    (∀ (next : ℚ) (pre : List CycleIn) (c : CycleIn) (post : List CycleIn) (s s1 : State),
      s.autoPowerOff = 60 → s.lastUsed.running = true → noButtons (pre ++ c :: post) →
      controlLoop interactive start next (pre ++ [c]) s = (false, s1) →
      (∀ j c', pre[j]? = some c' →
        (atInactivityCheck interactive start c'
          (runBodies interactive start next (pre.take j) s)).clock - s.lastUsed.stamp ≤ 60) →
      (atInactivityCheck interactive start c
          (runBodies interactive start next pre s)).clock - s.lastUsed.stamp > 60 →
        fires (runBodies interactive start next pre s) = fires s ∧
        powerOffs (runBodies interactive start next pre s) = powerOffs s ∧
        (runBodies interactive start next pre s).regulator.power = s.regulator.power ∧
        fires s1 = fires s + 1 ∧ powerOffs s1 = powerOffs s + 1 ∧
        s1.regulator.power = false ∧
        fires (controlLoop interactive start next (pre ++ c :: post) s).2 = fires s + 1 ∧
        powerOffs (controlLoop interactive start next (pre ++ c :: post) s).2 =
          powerOffs s + 1) := by
  refine ⟨?_, ?_, ?_, ?_, ?_⟩
  · intro s h
    have hv := inactivityCheck_fire_view s h
    refine ⟨?_, congrArg (fun v => v.2.2.2.1) hv, congrArg (fun v => v.2.2.2.2) hv⟩
    have : (inactivityCheck s).lastUsed = s.lastUsed.stop := congrArg Prod.fst hv
    rw [this]; rfl
  · intro next c s hc
    obtain ⟨hfire, hskip⟩ := cycleBody_view interactive start next c s hc
    by_cases h : s.autoPowerOff > 1 ∧ s.lastUsed.running = true ∧
        (atInactivityCheck interactive start c s).clock - s.lastUsed.stamp > s.autoPowerOff
    · have hv := hfire h
      have hf : fires (cycleBody interactive start next c s) = fires s + 1 :=
        congrArg (fun v => v.2.2.2.1) hv
      have hl : (cycleBody interactive start next c s).lastUsed = s.lastUsed.stop :=
        congrArg Prod.fst hv
      exact ⟨le_of_eq hf, fun _ => by rw [hl]; rfl⟩
    · have hv := hskip h
      have hf : fires (cycleBody interactive start next c s) = fires s :=
        congrArg (fun v => v.2.2.2.1) hv
      exact ⟨by omega, fun h1 => by omega⟩
  · intro next cycles s hr hn
    have hv := controlLoop_stopped_view interactive start cycles next s hr hn
    refine ⟨congrArg (fun v => v.2.2.2.1) hv, congrArg (fun v => v.2.2.2.2) hv, ?_⟩
    have : (controlLoop interactive start next cycles s).2.lastUsed = s.lastUsed :=
      congrArg Prod.fst hv
    rw [this, hr]
  · intro w s s1 hs hcfg
    obtain ⟨_, _, config, hlc, rfl⟩ := startup_ready_inv interactive w s s1 hs
    rw [hlc] at hcfg
    simp only at hcfg
    refine ⟨?_, rfl⟩
    show config.get "autoPowerOff".toList * 60 = 60
    rw [hcfg]; norm_num
  · intro next pre c post s s1 ha hr hn hrun hquiet hidle
    obtain ⟨hnpc, _⟩ := noButtons_append (pre ++ [c]) post (by simpa using hn)
    obtain ⟨hnp, hnc⟩ := noButtons_append pre [c] hnpc
    obtain ⟨hc, _⟩ := noButtons_cons c [] hnc
    have hnpost : noButtons post := (noButtons_cons c post (noButtons_append pre _ hn).2).2
    have hvp := runBodies_quiet_view interactive start pre next s hnp
      (by rw [ha]; exact hquiet)
    have hs1 := controlLoop_running_eq interactive start (pre ++ [c]) next s s1 hrun
    rw [runBodies_append] at hs1
    simp only [runBodies] at hs1
    have hl : (runBodies interactive start next pre s).lastUsed = s.lastUsed :=
      congrArg Prod.fst hvp
    have hap : (runBodies interactive start next pre s).autoPowerOff = s.autoPowerOff :=
      congrArg (fun v => v.2.1) hvp
    have hvc := (cycleBody_view interactive start
      (next + pre.length * timeStepGUI + timeStepGUI) c
      (runBodies interactive start next pre s) hc).1
      (by rw [hl, hap, ha, hr]; exact ⟨by norm_num, rfl, hidle⟩)
    rw [← hs1] at hvc
    have hf : fires (runBodies interactive start next pre s) = fires s :=
      congrArg (fun v => v.2.2.2.1) hvp
    have hp : powerOffs (runBodies interactive start next pre s) = powerOffs s :=
      congrArg (fun v => v.2.2.2.2) hvp
    have hf1 : fires s1 = fires s + 1 := by
      rw [← hf]; exact congrArg (fun v => v.2.2.2.1) hvc
    have hp1 : powerOffs s1 = powerOffs s + 1 := by
      rw [← hp]; exact congrArg (fun v => v.2.2.2.2) hvc
    have hr1 : s1.lastUsed.running = false := by
      have : s1.lastUsed = (runBodies interactive start next pre s).lastUsed.stop :=
        congrArg Prod.fst hvc
      rw [this]; rfl
    have hall : controlLoop interactive start next (pre ++ c :: post) s =
        controlLoop interactive start (next + (pre ++ [c]).length * timeStepGUI) post s1 := by
      have := controlLoop_append interactive start (pre ++ [c]) post next s s1 hrun
      simpa using this
    have hvpost := controlLoop_stopped_view interactive start post
      (next + (pre ++ [c]).length * timeStepGUI) s1 hr1 hnpost
    refine ⟨hf, hp, congrArg (fun v => v.2.2.1) hvp, hf1, hp1,
      congrArg (fun v => v.2.2.1) hvc, ?_, ?_⟩
    · rw [hall, ← hf1]; exact congrArg (fun v => v.2.2.2.1) hvpost
    · rw [hall, ← hp1]; exact congrArg (fun v => v.2.2.2.2) hvpost

/-! ## Pacing of the control loop -/

theorem truncToInt_of_nonneg (x : ℚ) (h : 0 ≤ x) : truncToInt x = ⌊x⌋ := by
  unfold truncToInt
  rw [if_pos h]
  rfl

theorem signalHandler_clock (n : ℤ) (s : State) : (signalHandler n s).clock = s.clock :=
  (signalHandler_view n s).2

theorem buttonHandler_clock (b : ℤ) (st : Bool) (t now : ℚ) (s : State) :
    (buttonHandler b st t now s).clock = s.clock := by
  unfold buttonHandler
  simp only [State.emit, State.setPower]
  split_ifs <;> rfl

theorem handleAll_clock (as : List Async) (s : State) : (handleAll as s).clock = s.clock := by
  induction as generalizing s with
  | nil => rfl
  | cons a as ih =>
    rw [handleAll_cons, ih]
    cases a with
    | button b st t now => exact buttonHandler_clock b st t now s
    | signal n => exact signalHandler_clock n s

theorem sleepRemainder_clock (next : ℚ) (s : State) :
    (sleepRemainder next s).clock =
      if next - s.clock > 0 then s.clock + (⌊1000 * (next - s.clock)⌋ : ℤ) / 1000
      else s.clock := by
  unfold sleepRemainder
  simp only
  split_ifs with h
  · rw [truncToInt_of_nonneg _ (by linarith)]
    rfl
  · rfl

theorem sleepRemainder_trace (next : ℚ) (s : State) :
    (sleepRemainder next s).trace =
      if next - s.clock > 0 then s.trace ++ [Effect.delayms ⌊1000 * (next - s.clock)⌋]
      else s.trace := by
  unfold sleepRemainder
  simp only
  split_ifs with h
  · rw [truncToInt_of_nonneg _ (by linarith)]
    rfl
  · rfl

/-- The clock at the end of a cycle: the processing time passes, then the sleep up to the
deadline, then the time by which the cycle ends late. -/
theorem cycleBody_clock (interactive : Bool) (start next : ℚ) (c : CycleIn) (s : State) :
    (cycleBody interactive start next c s).clock =
      (if next - (s.clock + c.work + c.workLog + c.workIdle) > 0 then
        s.clock + c.work + c.workLog + c.workIdle +
          (⌊1000 * (next - (s.clock + c.work + c.workLog + c.workIdle))⌋ : ℤ) / 1000
      else s.clock + c.work + c.workLog + c.workIdle) + c.late := by
  have hc : ((inactivityCheck (handleAll c.duringBody
      (atInactivityCheck interactive start c s))).elapse c.workIdle).clock =
      s.clock + c.work + c.workLog + c.workIdle := by
    show (inactivityCheck _).clock + c.workIdle = _
    rw [(inactivityCheck_flags _).2.2.1, handleAll_clock,
      (atInactivityCheck_fields interactive start c s).2.2.2]
  rw [cycleBody_eq]
  show (handleAll c.duringSleep _).clock + c.late = _
  rw [handleAll_clock, sleepRemainder_clock, hc]

/-- One sleep brings the clock to within a millisecond before the deadline. -/
theorem sleep_within_resolution (next clock : ℚ) :
    0 ≤ next - (clock + (⌊1000 * (next - clock)⌋ : ℤ) / 1000) ∧
    next - (clock + (⌊1000 * (next - clock)⌋ : ℤ) / 1000) < 1 / 1000 := by
  have h1 := Int.floor_le (1000 * (next - clock))
  have h2 := Int.lt_floor_add_one (1000 * (next - clock))
  constructor
  · linarith
  · linarith

theorem zeroCost_onTime (c : CycleIn) (h : zeroCost c) : onTime c := by
  obtain ⟨h1, h2, h3, h4⟩ := h
  refine ⟨?_, h4⟩
  rw [h1, h2, h3]
  norm_num [timeStepGUI]

theorem controlLoop_drift (interactive : Bool) (start : ℚ) (cycles : List CycleIn) :
    ∀ (next : ℚ) (s sN : State), 0 ≤ next - s.clock → next - s.clock < 1 / 1000 →
      (∀ c ∈ cycles, onTime c) →
      controlLoop interactive start next cycles s = (false, sN) →
        0 ≤ next + cycles.length * timeStepGUI - sN.clock ∧
        next + cycles.length * timeStepGUI - sN.clock < 1 / 1000 := by
  induction cycles with
  | nil =>
    intro next s sN h0 h1 _ hrun
    have : s = sN := by simpa [controlLoop] using hrun
    subst this
    simp only [List.length_nil, Nat.cast_zero, zero_mul, add_zero]
    exact ⟨h0, h1⟩
  | cons c cs ih =>
    intro next s sN h0 h1 hz hrun
    by_cases he : exitTest interactive c s
    · rw [controlLoop_cons_exit _ _ _ _ _ _ he] at hrun
      exact absurd (congrArg Prod.fst hrun) (by simp)
    · rw [controlLoop_cons_continue _ _ _ _ _ _ he] at hrun
      obtain ⟨hw, hlate⟩ := hz c (List.mem_cons_self c cs)
      have hpos : 0 < next + timeStepGUI - (s.clock + c.work + c.workLog + c.workIdle) := by
        linarith
      have hclock := cycleBody_clock interactive start (next + timeStepGUI) c s
      rw [if_pos hpos, hlate, add_zero] at hclock
      obtain ⟨g0, g1⟩ := sleep_within_resolution (next + timeStepGUI)
        (s.clock + c.work + c.workLog + c.workIdle)
      rw [← hclock] at g0 g1
      have := ih (next + timeStepGUI) _ sN g0 g1
        (fun c' hc' => hz c' (List.mem_cons_of_mem c hc')) hrun
      simp only [List.length_cons]
      push_cast
      have e : next + (↑cs.length + 1) * timeStepGUI - sN.clock =
          next + timeStepGUI + ↑cs.length * timeStepGUI - sN.clock := by ring
      rw [e]
      exact this

/-- The deadline of a cycle is the start time plus the period for every cycle so far, whatever
the clock reads: the body of cycle `k + 1` runs with the deadline
`start + (k + 1) * timeStepGUI`. -/
theorem controlLoop_deadline (interactive : Bool) (start : ℚ) (pre : List CycleIn) (c : CycleIn)
    (post : List CycleIn) (s sN : State)
    (hrun : controlLoop interactive start start (pre ++ c :: post) s = (false, sN)) :
    ∃ sp, controlLoop interactive start start pre s = (false, sp) ∧
      controlLoop interactive start start (pre ++ [c]) s =
        (false, cycleBody interactive start (start + (pre.length + 1) * timeStepGUI) c sp) := by
  obtain ⟨sp, hsp⟩ := controlLoop_split interactive start pre (c :: post) start s sN hrun
  refine ⟨sp, hsp, ?_⟩
  rw [controlLoop_append interactive start pre (c :: post) start s sp hsp] at hrun
  have hne : ¬ exitTest interactive c sp := by
    intro he
    rw [controlLoop_cons_exit _ _ _ _ _ _ he] at hrun
    exact absurd (congrArg Prod.fst hrun) (by simp)
  rw [controlLoop_append interactive start pre [c] start s sp hsp,
    controlLoop_cons_continue _ _ _ _ _ _ hne]
  have e : start + ↑pre.length * timeStepGUI + timeStepGUI =
      start + (↑pre.length + 1) * timeStepGUI := by ring
  rw [e]
  rfl

/-- Claim C7, as amended. Over exact time the deadline of the loop starts at the start time and
is advanced by the fixed period `timeStepGUI` of a quarter of a second once per cycle, whatever
the configured `timeStep` is and whatever the clock reads: in a loop that runs through the
given cycles, the body of cycle `k + 1` runs with the deadline `start + (k + 1) * timeStepGUI`.
The end-of-cycle sleep is taken only when the remainder up to the deadline is positive, for the
whole milliseconds in it. With zero processing cost the clock at the end of cycle N, for every
N, is at most `start + N * timeStepGUI` and lags it by less than one millisecond; the same
holds when the cycles have a processing cost below the period and end with their sleep, so
that neither the processing cost nor the truncation of the sleeps accumulates. -/
theorem pacing_drift_bound (interactive : Bool) (start : ℚ) (cycles : List CycleIn)
    (s sN : State) (hstart : s.clock = start)
    (hrun : controlLoop interactive start start cycles s = (false, sN)) :
    (∀ pre c post, cycles = pre ++ c :: post →
      ∃ sp, controlLoop interactive start start pre s = (false, sp) ∧
        controlLoop interactive start start (pre ++ [c]) s =
          (false,
            cycleBody interactive start (start + (pre.length + 1) * timeStepGUI) c sp)) ∧
    (∀ (next : ℚ) (x : State),
      (next - x.clock ≤ 0 → sleepRemainder next x = x) ∧
      (0 < next - x.clock →
        (sleepRemainder next x).trace =
          x.trace ++ [Effect.delayms ⌊1000 * (next - x.clock)⌋] ∧
        (sleepRemainder next x).clock =
          x.clock + (⌊1000 * (next - x.clock)⌋ : ℤ) / 1000)) ∧
    ((∀ c ∈ cycles, zeroCost c) →
      sN.clock ≤ start + cycles.length * timeStepGUI ∧
      start + cycles.length * timeStepGUI - sN.clock < 1 / 1000) ∧
    ((∀ c ∈ cycles, onTime c) →
      sN.clock ≤ start + cycles.length * timeStepGUI ∧
      start + cycles.length * timeStepGUI - sN.clock < 1 / 1000) ∧
    sN = runBodies interactive start start cycles s := by
  have hbound : (∀ c ∈ cycles, onTime c) →
      sN.clock ≤ start + cycles.length * timeStepGUI ∧
      start + cycles.length * timeStepGUI - sN.clock < 1 / 1000 := by
    intro hz
    obtain ⟨h0, h1⟩ := controlLoop_drift interactive start cycles start s sN
      (by rw [hstart]; simp) (by rw [hstart]; norm_num) hz hrun
    exact ⟨by linarith, h1⟩
  refine ⟨?_, ?_, ?_, hbound,
    controlLoop_running_eq interactive start cycles start s sN hrun⟩
  · intro pre c post hsplit
    subst hsplit
    exact controlLoop_deadline interactive start pre c post s sN hrun
  · intro next x
    constructor
    · intro h
      unfold sleepRemainder
      simp only
      rw [if_neg (not_lt.mpr h)]
    · intro h
      have ht := sleepRemainder_trace next x
      have hc := sleepRemainder_clock next x
      rw [if_pos h] at ht hc
      exact ⟨ht, hc⟩
  · intro hz
    exact hbound (fun c hc => zeroCost_onTime c (hz c hc))

/-- Three cycles, the first and the third with a processing cost of a third of a millisecond:
every sleep is cut to whole milliseconds, and the third cycle ends a third of a millisecond
before `start + 3 * timeStepGUI`. After a cycle that overruns the period the next body still
runs with the deadline `start + 2 * timeStepGUI`, and its sleep is the 200 milliseconds left
up to that deadline, not a full period. -/
theorem pacing_drift_bound_witness :
    ((controlLoop false 0 0 [busyCycle, quietCycle, busyCycle] exampleState).2.clock ≤
        0 + ([busyCycle, quietCycle, busyCycle].length : ℚ) * timeStepGUI ∧
      0 + ([busyCycle, quietCycle, busyCycle].length : ℚ) * timeStepGUI -
        (controlLoop false 0 0 [busyCycle, quietCycle, busyCycle] exampleState).2.clock <
          1 / 1000) ∧
    (controlLoop false 0 0 [busyCycle, quietCycle, busyCycle] exampleState).2.clock =
      2249 / 3000 ∧
    (controlLoop false 0 0 [overrunCycle, quietCycle] exampleState).2.clock = 1 / 2 ∧
    (controlLoop false 0 0 [overrunCycle, quietCycle] exampleState).2.trace.getLast? =
      some (Effect.delayms 200) :=
  ⟨(pacing_drift_bound false 0 [busyCycle, quietCycle, busyCycle] exampleState
      (controlLoop false 0 0 [busyCycle, quietCycle, busyCycle] exampleState).2 rfl
      (by decide!)).2.2.2.1 (by decide!),
    by decide!, by decide!, by decide!⟩

/-- Claim C7 as stated fails for the configured time step: with `timeStep 1` in the
configuration file and zero processing cost, the first cycle ends a quarter of a second after
the start, three quarters of a second before `start + 1 * timeStep`. -/
theorem pacing_timeStep_counterexample :
    (runController false oneSecondWorld exampleState).1 = none ∧
    (runController false oneSecondWorld exampleState).2.regulator.timeStep = 1 ∧
    (runController false oneSecondWorld exampleState).2.clock = exampleState.clock + 1 / 4 ∧
    ¬ (exampleState.clock +
        1 * (runController false oneSecondWorld exampleState).2.regulator.timeStep -
        (runController false oneSecondWorld exampleState).2.clock < 1 / 1000) := by
  decide!

/-! ## The claims at concrete inputs -/

/-- A long press during the sleep of the first cycle: the loop is left at the next loop test, in
the state in which that cycle ended. -/
theorem control_loop_exit_witness :
    controlLoop false 0 0 ([] ++ longPressCycle :: quietCycle :: []) exampleState =
      (true, cycleBody false 0 (0 + timeStepGUI) longPressCycle exampleState) ∧
    (cycleBody false 0 (0 + timeStepGUI) longPressCycle exampleState).quit = true ∧
    (cycleBody false 0 (0 + timeStepGUI) longPressCycle exampleState).halt = true :=
  (control_loop_exit false).2.2.2 0 0 [] longPressCycle quietCycle [] exampleState
    (cycleBody false 0 (0 + timeStepGUI) longPressCycle exampleState) (6 / 5) (1 / 10)
    (by decide!) (by decide!) (by norm_num)

/-- After 61 idle seconds with a threshold of 60 seconds the inactivity test fires. -/
theorem inactivity_branch_iff_witness :
    inactivityCheck idleState =
      { idleState with regulator := { idleState.regulator with power := false },
                       lastUsed := idleState.lastUsed.stop,
                       trace := idleState.trace ++ [Effect.setPower false, Effect.inactivityMsg] } :=
  (inactivity_branch_iff false 0 0 quietCycle idleState).1 (by decide!)

/-- With a threshold of 60 seconds and a first cycle whose test comes 61 seconds after the last
interaction, the loop fires in that cycle and exactly once. -/
theorem watchdog_fires_once_witness :
    fires (runBodies false 0 0 [] watchingState) = fires watchingState ∧
    powerOffs (runBodies false 0 0 [] watchingState) = powerOffs watchingState ∧
    (runBodies false 0 0 [] watchingState).regulator.power = watchingState.regulator.power ∧
    fires (cycleBody false 0 (0 + timeStepGUI) lateCycle watchingState) =
      fires watchingState + 1 ∧
    powerOffs (cycleBody false 0 (0 + timeStepGUI) lateCycle watchingState) =
      powerOffs watchingState + 1 ∧
    (cycleBody false 0 (0 + timeStepGUI) lateCycle watchingState).regulator.power = false ∧
    fires (controlLoop false 0 0 ([] ++ lateCycle :: [quietCycle, quietCycle]) watchingState).2 =
      fires watchingState + 1 ∧
    powerOffs
        (controlLoop false 0 0 ([] ++ lateCycle :: [quietCycle, quietCycle]) watchingState).2 =
      powerOffs watchingState + 1 :=
  (watchdog_fires_once false 0).2.2.2.2 0 [] lateCycle [quietCycle, quietCycle] watchingState
    (cycleBody false 0 (0 + timeStepGUI) lateCycle watchingState) rfl rfl
    (by
      intro c hc a ha
      simp only [List.nil_append, List.mem_cons, List.mem_singleton, List.not_mem_nil,
        or_false] at hc
      rcases hc with rfl | rfl | rfl <;> simp [lateCycle, quietCycle] at ha)
    (by decide!)
    (by intro j c' h; simp at h)
    (by decide!)

/-! ## Command-line dispatch in `main` -/

theorem parseOptions_eq (options : List String) :
    ∀ (interactive : Bool) (s : State),
      parseOptions options (interactive, s) =
        (interactive || decide ("-i" ∈ options),
         { s with enableBoiler := s.enableBoiler && !decide ("-d" ∈ options),
                  trace := s.trace ++ optionWarnings options }) := by
  induction options with
  | nil =>
    intro interactive s
    simp [parseOptions, optionWarnings]
  | cons o os ih =>
    intro interactive s
    by_cases hi : o = "-i"
    · subst hi
      simp [parseOptions, ih, optionWarnings]
    · by_cases hd : o = "-d"
      · subst hd
        simp [parseOptions, ih, optionWarnings]
      · have hi' : ¬ "-i" = o := fun h => hi h.symm
        have hd' : ¬ "-d" = o := fun h => hd h.symm
        simp [parseOptions, ih, optionWarnings, hi, hd, hi', hd', State.emit]

theorem main_options (prog command : String) (options : List String) (w : World)
    (tw : TestWorld) (s : State) :
    main (prog :: command :: options) true true w tw s =
      if command = "stop" then
        (some 0, ((afterOptions options s).emit Effect.boilerPowerOff).emit Effect.turnedOffMsg)
      else if command = "start" then
        runController (decide ("-i" ∈ options)) w ((afterOptions options s).emit Effect.startingMsg)
      else if command = "test" then
        runTests tw ((afterOptions options s).emit Effect.testModeMsg)
      else (some 1, (afterOptions options s).emit Effect.unrecognisedCommandMsg) := by
  have h : parseOptions options (false, s.emit Effect.notifyRegister) =
      (decide ("-i" ∈ options), afterOptions options s) := by
    rw [parseOptions_eq]
    simp [afterOptions, State.emit]
  unfold main
  simp only [Bool.not_true, Bool.false_eq_true, if_false, h]

theorem runController_first_setPower (interactive : Bool) (w : World) (s s1 : State)
    (h : startup interactive w s = (none, s1)) :
    s1.trace ++ [Effect.setPower s.enableBoiler, Effect.start] <+:
      (runController interactive w s).2.trace := by
  obtain ⟨_, _, config, _, rfl⟩ := startup_ready_inv interactive w s s1 h
  rw [runController_of_startup interactive w s _ h]
  have hentry : (loopEntry (configured interactive config s)).trace =
      (configured interactive config s).trace ++ [Effect.setPower s.enableBoiler, Effect.start] := by
    simp [loopEntry, State.emit, State.setPower, configured]
  have hloop := controlLoop_trace_grows interactive (configured interactive config s).clock
    w.cycles (configured interactive config s).clock (loopEntry (configured interactive config s))
  rw [hentry] at hloop
  rcases hr : controlLoop interactive (configured interactive config s).clock
      (configured interactive config s).clock w.cycles
      (loopEntry (configured interactive config s)) with ⟨left, s'⟩
  rw [hr] at hloop
  cases left
  · exact hloop
  · refine hloop.trans ?_
    show s'.trace <+: (shutdown interactive s').trace
    rw [shutdown_trace, List.append_assoc, List.append_assoc]
    exact List.prefix_append _ _

/-- Claim C9. Dispatch in `main` when both signal hooks succeed. Without a command `main`
returns 1 and only registers the button handler and reports the error; with a command other
than `start`, `stop` and `test` it returns 1 and only registers the handler, warns about
unexpected options and reports the error: the regulator is untouched, the boiler is not
powered off and the controller is not run. For `stop` it powers the boiler off and returns 0
whatever the options are. For `start` it runs the controller, interactive exactly when some
option is `-i`, and, the boiler-enable flag being set at program start, the flag passed to the
first `setPower` of the regulator is false exactly when some option is `-d`. Every other
option adds one warning and nothing else. -/
theorem main_dispatch (argv : List String) (w : World) (tw : TestWorld) (s : State) :
    (argv.length < 2 →
      main argv true true w tw s =
        (some 1, (s.emit Effect.notifyRegister).emit Effect.expectedCommandMsg)) ∧
    (∀ prog command options, argv = prog :: command :: options →
      (command ≠ "start" → command ≠ "stop" → command ≠ "test" →
        main argv true true w tw s =
          (some 1, (afterOptions options s).emit Effect.unrecognisedCommandMsg) ∧
        (main argv true true w tw s).2.regulator = s.regulator ∧
        (main argv true true w tw s).2.trace =
          s.trace ++ [Effect.notifyRegister] ++ optionWarnings options ++
            [Effect.unrecognisedCommandMsg]) ∧
      (command = "stop" →
        main argv true true w tw s =
          (some 0, ((afterOptions options s).emit Effect.boilerPowerOff).emit
            Effect.turnedOffMsg) ∧
        (main argv true true w tw s).2.trace =
          s.trace ++ [Effect.notifyRegister] ++ optionWarnings options ++
            [Effect.boilerPowerOff, Effect.turnedOffMsg]) ∧
      (command = "start" →
        main argv true true w tw s =
          runController (decide ("-i" ∈ options)) w
            ((afterOptions options s).emit Effect.startingMsg) ∧
        (s.enableBoiler = true → ∀ s1,
          startup (decide ("-i" ∈ options)) w
            ((afterOptions options s).emit Effect.startingMsg) = (none, s1) →
          s1.trace ++ [Effect.setPower (!decide ("-d" ∈ options)), Effect.start] <+:
            (main argv true true w tw s).2.trace))) := by
  constructor
  · intro h
    match argv, h with
    | [], _ => simp [main]
    | [_], _ => simp [main]
  · intro prog command options hargv
    subst hargv
    rw [main_options]
    refine ⟨?_, ?_, ?_⟩
    · intro h1 h2 h3
      rw [if_neg h2, if_neg h1, if_neg h3]
      refine ⟨rfl, rfl, ?_⟩
      simp [afterOptions, State.emit]
    · intro h
      rw [if_pos h]
      refine ⟨rfl, ?_⟩
      simp [afterOptions, State.emit]
    · intro h
      have hs : command ≠ "stop" := by rw [h]; decide
      rw [if_neg hs, if_pos h]
      refine ⟨rfl, ?_⟩
      intro he s1 hstart
      have := runController_first_setPower (decide ("-i" ∈ options)) w
        ((afterOptions options s).emit Effect.startingMsg) s1 hstart
      have hflag : ((afterOptions options s).emit Effect.startingMsg).enableBoiler =
          !decide ("-d" ∈ options) := by
        simp [afterOptions, State.emit, he]
      rw [hflag] at this
      exact this

/-- The command `stop` with a stray option: the boiler is powered off after one warning, and
the exit code is 0. -/
theorem main_dispatch_witness :
    main ["gaggia", "stop", "-x"] true true oneSecondWorld
        { sensor := [], reopened := [], cycles := [] } exampleState =
      (some 0, ((afterOptions ["-x"] exampleState).emit Effect.boilerPowerOff).emit
        Effect.turnedOffMsg) ∧
    (main ["gaggia", "stop", "-x"] true true oneSecondWorld
        { sensor := [], reopened := [], cycles := [] } exampleState).2.trace =
      exampleState.trace ++ [Effect.notifyRegister] ++ optionWarnings ["-x"] ++
        [Effect.boilerPowerOff, Effect.turnedOffMsg] :=
  ((main_dispatch ["gaggia", "stop", "-x"] oneSecondWorld
    { sensor := [], reopened := [], cycles := [] } exampleState).2
      "gaggia" "stop" ["-x"] rfl).2.1 rfl

/-! ## `loadConfig` -/

theorem isSpace_not_field (c : Char) (h : isSpace c = true) :
    c.isDigit = false ∧ c ≠ '.' ∧ c ≠ 'e' ∧ c ≠ 'E' ∧ c ≠ '+' ∧ c ≠ '-' := by
  simp only [isSpace, Bool.or_eq_true, decide_eq_true_eq] at h
  rcases h with ((((h | h) | h) | h) | h) | h <;> subst h <;> decide

theorem skipWs_append (ws rest : List Char) (h : ∀ c ∈ ws, isSpace c = true) :
    skipWs (ws ++ rest) = skipWs rest := by
  induction ws with
  | nil => rfl
  | cons c cs ih =>
    have hc := h c (List.mem_cons_self c cs)
    simp only [skipWs, List.cons_append, List.dropWhile_cons, hc, if_true]
    exact ih (fun d hd => h d (List.mem_cons_of_mem c hd))

theorem skipWs_word (c : Char) (cs : List Char) (h : isSpace c = false) :
    skipWs (c :: cs) = c :: cs := by
  simp [skipWs, List.dropWhile_cons, h]

theorem takeWhile_word (word rest : List Char) (c : Char) (hw : ∀ d ∈ word, isSpace d = false)
    (hc : isSpace c = true) :
    (word ++ c :: rest).takeWhile (fun x => !isSpace x) = word ∧
    (word ++ c :: rest).dropWhile (fun x => !isSpace x) = c :: rest := by
  induction word with
  | nil => simp [List.takeWhile_cons, List.dropWhile_cons, hc]
  | cons d ds ih =>
    have hd := hw d (List.mem_cons_self d ds)
    obtain ⟨h1, h2⟩ := ih (fun x hx => hw x (List.mem_cons_of_mem d hx))
    simp [List.takeWhile_cons, List.dropWhile_cons, hd, h1, h2]

/-- Reading the key of a well-formed pair. -/
theorem readKey_word (lead key sep rest : List Char) (hl : ∀ c ∈ lead, isSpace c = true)
    (hk : key ≠ []) (hkw : ∀ c ∈ key, isSpace c = false) (hs : sep ≠ [])
    (hsw : ∀ c ∈ sep, isSpace c = true) :
    readKey (lead ++ (key ++ (sep ++ rest))) = some (key, sep ++ rest) := by
  obtain ⟨k, ks, rfl⟩ := List.exists_cons_of_ne_nil hk
  obtain ⟨c, cs, rfl⟩ := List.exists_cons_of_ne_nil hs
  have hk0 := hkw k (List.mem_cons_self k ks)
  have hc := hsw c (List.mem_cons_self c cs)
  obtain ⟨h1, h2⟩ := takeWhile_word (k :: ks) (cs ++ rest) c hkw hc
  unfold readKey
  rw [skipWs_append lead _ hl, List.cons_append, skipWs_word k _ hk0]
  simp only [List.cons_append] at h1 h2 ⊢
  rw [h1, h2]

theorem scanFloat_boundary (rest : List Char) (hb : atBoundary rest) (fm fd fs fa : Bool) :
    scanFloat fm fd fs fa rest = ([], rest) := by
  rcases hb with rfl | ⟨c, r, rfl, hc⟩
  · rfl
  · obtain ⟨h1, h2, h3, h4, h5, h6⟩ := isSpace_not_field c hc
    simp [scanFloat, h1, h2, h3, h4, h5, h6]

theorem scanFloat_cons (fm fd fs fa : Bool) (c : Char) (cs : List Char) :
    scanFloat fm fd fs fa (c :: cs) =
      if (fa && (c = '+' || c = '-')) = true then
        (c :: (scanFloat fm fd fs false cs).1, (scanFloat fm fd fs false cs).2)
      else if c.isDigit = true then
        (c :: (scanFloat true fd fs false cs).1, (scanFloat true fd fs false cs).2)
      else if (c = '.' && !fd && !fs) = true then
        (c :: (scanFloat fm true fs false cs).1, (scanFloat fm true fs false cs).2)
      else if ((c = 'e' || c = 'E') && !fs && fm) = true then
        (c :: (scanFloat fm fd true true cs).1, (scanFloat fm fd true true cs).2)
      else ([], c :: cs) := by
  rw [scanFloat]

theorem scanField_cons (c : Char) (cs : List Char) :
    scanField (c :: cs) =
      if (c = '+' || c = '-') = true then
        (c :: (scanFloat false false false false cs).1, (scanFloat false false false false cs).2)
      else scanFloat false false false false (c :: cs) := by
  rw [scanField]

theorem scanFloat_append (rest : List Char) (hb : atBoundary rest) (field : List Char) :
    ∀ (fm fd fs fa : Bool), (scanFloat fm fd fs fa field).2 = [] →
      scanFloat fm fd fs fa (field ++ rest) = ((scanFloat fm fd fs fa field).1, rest) := by
  induction field with
  | nil =>
    intro fm fd fs fa _
    exact scanFloat_boundary rest hb fm fd fs fa
  | cons c cs ih =>
    intro fm fd fs fa hdone
    rw [List.cons_append, scanFloat_cons]
    rw [scanFloat_cons] at hdone ⊢
    split_ifs at hdone ⊢ with h0 h1 h2 h3
    · simp only at hdone ⊢; rw [ih _ _ _ _ hdone]
    · simp only at hdone ⊢; rw [ih _ _ _ _ hdone]
    · simp only at hdone ⊢; rw [ih _ _ _ _ hdone]
    · simp only at hdone ⊢; rw [ih _ _ _ _ hdone]

theorem scanField_append (rest : List Char) (hb : atBoundary rest) (field : List Char)
    (hne : field ≠ []) (hdone : (scanField field).2 = []) :
    scanField (field ++ rest) = ((scanField field).1, rest) := by
  obtain ⟨c, cs, rfl⟩ := List.exists_cons_of_ne_nil hne
  rw [List.cons_append, scanField_cons]
  rw [scanField_cons] at hdone ⊢
  split_ifs at hdone ⊢ with h
  · simp only at hdone ⊢
    rw [scanFloat_append rest hb cs _ _ _ _ hdone]
  · have := scanFloat_append rest hb (c :: cs) _ _ _ _ hdone
    rw [List.cons_append] at this
    exact this

theorem readValue_nil : readValue [] = none := by
  decide

/-- Reading the value of a well-formed pair. -/
theorem readValue_field (sep field rest : List Char) (v : ℚ)
    (hsw : ∀ c ∈ sep, isSpace c = true) (hfw : ∀ c ∈ field, isSpace c = false)
    (hv : readValue field = some (v, [])) (hb : atBoundary rest) :
    readValue (sep ++ (field ++ rest)) = some (v, rest) := by
  have hne : field ≠ [] := by
    intro h
    rw [h, readValue_nil] at hv
    exact absurd hv (by simp)
  obtain ⟨c, cs, rfl⟩ := List.exists_cons_of_ne_nil hne
  have hc := hfw c (List.mem_cons_self c cs)
  unfold readValue at hv ⊢
  rw [skipWs_word c cs hc] at hv
  rw [skipWs_append sep _ hsw, List.cons_append, skipWs_word c _ hc]
  simp only at hv ⊢
  cases hf : fieldValue (scanField (c :: cs)).1 with
  | none => rw [hf] at hv; exact absurd hv (by simp)
  | some x =>
    rw [hf] at hv
    simp only [Option.some.injEq, Prod.mk.injEq] at hv
    have happ := scanField_append rest hb (c :: cs) hne hv.2
    rw [List.cons_append] at happ
    rw [happ]
    simp only
    rw [hf, hv.1]

theorem skipWs_length (s : List Char) : (skipWs s).length ≤ s.length := by
  induction s with
  | nil => simp [skipWs]
  | cons c cs ih =>
    unfold skipWs at ih ⊢
    rw [List.dropWhile_cons]
    split_ifs
    · exact Nat.le_succ_of_le ih
    · exact Nat.le_refl _

theorem skipWs_head (f : List Char) (c : Char) (cs : List Char) (h : skipWs f = c :: cs) :
    isSpace c = false := by
  induction f with
  | nil => simp [skipWs] at h
  | cons d ds ih =>
    unfold skipWs at h ih
    rw [List.dropWhile_cons] at h
    split_ifs at h with hd
    · exact ih h
    · simp only [List.cons.injEq] at h
      rw [← h.1]
      simpa using hd

theorem dropWhile_length (p : Char → Bool) (s : List Char) :
    (s.dropWhile p).length ≤ s.length := by
  induction s with
  | nil => simp
  | cons c cs ih =>
    rw [List.dropWhile_cons]
    split_ifs
    · exact Nat.le_succ_of_le ih
    · exact Nat.le_refl _

theorem readKey_length (f key rest : List Char) (h : readKey f = some (key, rest)) :
    rest.length < f.length := by
  unfold readKey at h
  have hl := skipWs_length f
  cases hs : skipWs f with
  | nil => rw [hs] at h; exact absurd h (by simp)
  | cons c cs =>
    rw [hs] at h hl
    simp only [Option.some.injEq, Prod.mk.injEq] at h
    have hc : isSpace c = false := skipWs_head f c cs hs
    have hd : (c :: cs).dropWhile (fun x => !isSpace x) = cs.dropWhile (fun x => !isSpace x) := by
      rw [List.dropWhile_cons]; simp [hc]
    rw [← h.2, hd]
    have := dropWhile_length (fun x => !isSpace x) cs
    simp only [List.length_cons] at hl
    omega

theorem scanFloat_length (s : List Char) :
    ∀ (fm fd fs fa : Bool), (scanFloat fm fd fs fa s).2.length ≤ s.length := by
  induction s with
  | nil => intro fm fd fs fa; simp [scanFloat]
  | cons c cs ih =>
    intro fm fd fs fa
    rw [scanFloat_cons]
    split_ifs
    · exact Nat.le_succ_of_le (ih _ _ _ _)
    · exact Nat.le_succ_of_le (ih _ _ _ _)
    · exact Nat.le_succ_of_le (ih _ _ _ _)
    · exact Nat.le_succ_of_le (ih _ _ _ _)
    · exact Nat.le_refl _

theorem scanField_length (s : List Char) : (scanField s).2.length ≤ s.length := by
  cases s with
  | nil => simp [scanField]
  | cons c cs =>
    rw [scanField_cons]
    split_ifs
    · exact Nat.le_succ_of_le (scanFloat_length cs _ _ _ _)
    · exact scanFloat_length (c :: cs) _ _ _ _

theorem readValue_length (f rest : List Char) (v : ℚ) (h : readValue f = some (v, rest)) :
    rest.length ≤ f.length := by
  unfold readValue at h
  simp only at h
  cases hf : fieldValue (scanField (skipWs f)).1 with
  | none => rw [hf] at h; exact absurd h (by simp)
  | some x =>
    rw [hf] at h
    simp only [Option.some.injEq, Prod.mk.injEq] at h
    rw [← h.2]
    exact (scanField_length _).trans (skipWs_length f)

/-- The loop of `loadConfig` never uses up a fuel larger than the length of the stream. -/
theorem loadConfigLoop_terminates (fuel : ℕ) :
    ∀ (f : List Char) (config : Config), f.length < fuel →
      ∃ c, loadConfigLoop fuel f config = some c := by
  induction fuel with
  | zero => intro f config h; exact absurd h (Nat.not_lt_zero _)
  | succ fuel ih =>
    intro f config h
    unfold loadConfigLoop
    cases hk : readKey f with
    | none => exact ⟨config, rfl⟩
    | some kr =>
      obtain ⟨key, f1⟩ := kr
      have h1 := readKey_length f key f1 hk
      simp only
      cases hv : readValue f1 with
      | none => exact ⟨config, rfl⟩
      | some vr =>
        obtain ⟨value, f2⟩ := vr
        have h2 := readValue_length f1 f2 value hv
        simp only
        exact ih f2 _ (by omega)

theorem readKey_blank (lead : List Char) (hl : ∀ c ∈ lead, isSpace c = true) :
    readKey lead = none := by
  have := skipWs_append lead [] hl
  rw [List.append_nil] at this
  unfold readKey
  rw [this]
  rfl

theorem entriesConfig_cons (e : Entry) (es : List Entry) (config : Config) :
    entriesConfig (e :: es) ++ config = entriesConfig es ++ config.set e.key e.value := by
  simp [entriesConfig, Config.set]

/-- The loop of `loadConfig` on a well-formed file stores the pairs in order. -/
theorem loadConfigLoop_entries (entries : List Entry) :
    ∀ (lead : List Char) (fuel : ℕ) (config : Config),
      (∀ c ∈ lead, isSpace c = true) → (∀ e ∈ entries, e.WellFormed) → separated entries →
      (lead ++ entriesText entries).length < fuel →
      loadConfigLoop fuel (lead ++ entriesText entries) config =
        some (entriesConfig entries ++ config) := by
  induction entries with
  | nil =>
    intro lead fuel config hl _ _ hf
    cases fuel with
    | zero => exact absurd hf (Nat.not_lt_zero _)
    | succ fuel =>
      simp only [entriesText, List.append_nil]
      unfold loadConfigLoop
      rw [readKey_blank lead hl]
      rfl
  | cons e es ih =>
    intro lead fuel config hl hwf hsep hf
    obtain ⟨hk, hkw, hs, hsw, hfw, hv, hgw⟩ := hwf e (List.mem_cons_self e es)
    have hb : atBoundary (e.gap ++ entriesText es) := by
      cases hg : e.gap with
      | nil =>
        cases es with
        | nil => left; rfl
        | cons e' es' => exact absurd hg hsep.1
      | cons c r =>
        right
        exact ⟨c, r ++ entriesText es, rfl, hgw c (by rw [hg]; exact List.mem_cons_self c r)⟩
    have htext : lead ++ entriesText (e :: es) =
        lead ++ (e.key ++ (e.sep ++ (e.field ++ (e.gap ++ entriesText es)))) := by
      simp [entriesText, Entry.text, List.append_assoc]
    have hsep' : separated es := by
      cases es with
      | nil => trivial
      | cons e' es' => exact hsep.2
    cases fuel with
    | zero => exact absurd hf (Nat.not_lt_zero _)
    | succ fuel =>
      rw [htext] at hf ⊢
      unfold loadConfigLoop
      rw [readKey_word lead e.key e.sep _ hl hk hkw hs hsw]
      simp only
      rw [readValue_field e.sep e.field _ e.value hsw hfw hv hb]
      simp only
      rw [ih e.gap fuel _ hgw (fun x hx => hwf x (List.mem_cons_of_mem e hx)) hsep',
        entriesConfig_cons]
      have hkl : 0 < e.key.length := List.length_pos.mpr hk
      simp only [List.length_append] at hf ⊢
      omega

theorem Config.get_append (l config : Config) (key : List Char)
    (h : ∀ p ∈ l, p.1 ≠ key) : Config.get (l ++ config) key = Config.get config key := by
  induction l with
  | nil => rfl
  | cons p ps ih =>
    obtain ⟨k, v⟩ := p
    have hk : (key == k) = false := by
      have := h (k, v) (List.mem_cons_self _ _)
      simpa using fun e => this e.symm
    have := ih (fun q hq => h q (List.mem_cons_of_mem _ hq))
    unfold Config.get at this ⊢
    rw [List.cons_append, List.lookup_cons, hk]
    exact this

theorem Config.get_cons_self (config : Config) (key : List Char) (v : ℚ) :
    Config.get ((key, v) :: config) key = v := by
  simp [Config.get, List.lookup_cons]

/-- The value of a key in the map of the pairs: the value of its last occurrence, and the
value in the map before when there is none. -/
theorem entriesConfig_get (entries : List Entry) (config : Config) :
    (∀ key, (∀ e ∈ entries, e.key ≠ key) →
      Config.get (entriesConfig entries ++ config) key = Config.get config key) ∧
    (∀ pre e post, entries = pre ++ e :: post → (∀ e' ∈ post, e'.key ≠ e.key) →
      Config.get (entriesConfig entries ++ config) e.key = e.value) := by
  constructor
  · intro key h
    apply Config.get_append
    intro p hp
    simp only [entriesConfig, List.mem_map, List.mem_reverse] at hp
    obtain ⟨e, he, rfl⟩ := hp
    exact h e he
  · intro pre e post hsplit hlast
    subst hsplit
    have : entriesConfig (pre ++ e :: post) ++ config =
        entriesConfig post ++ ((e.key, e.value) :: (entriesConfig pre ++ config)) := by
      simp [entriesConfig]
    rw [this, Config.get_append _ _ _ (by
      intro p hp
      simp only [entriesConfig, List.mem_map, List.mem_reverse] at hp
      obtain ⟨e', he', rfl⟩ := hp
      exact hlast e' he')]
    exact Config.get_cons_self _ _ _

theorem scanFloat_partition (s : List Char) :
    ∀ (fm fd fs fa : Bool), (scanFloat fm fd fs fa s).1 ++ (scanFloat fm fd fs fa s).2 = s := by
  induction s with
  | nil => intro fm fd fs fa; rfl
  | cons c cs ih =>
    intro fm fd fs fa
    rw [scanFloat_cons]
    split_ifs
    · simp only [List.cons_append, ih]
    · simp only [List.cons_append, ih]
    · simp only [List.cons_append, ih]
    · simp only [List.cons_append, ih]
    · rfl

theorem scanField_partition (s : List Char) : (scanField s).1 ++ (scanField s).2 = s := by
  cases s with
  | nil => rfl
  | cons c cs =>
    rw [scanField_cons]
    split_ifs
    · simp only [List.cons_append, scanFloat_partition]
    · exact scanFloat_partition (c :: cs) _ _ _ _

theorem fieldValue_in_range (field : List Char) (v : ℚ) (h : fieldValue field = some v) :
    |v| < doubleOverflow := by
  unfold fieldValue at h
  cases hn : fieldNumber field with
  | none => rw [hn] at h; exact absurd h (by simp)
  | some x =>
    rw [hn] at h
    simp only at h
    split_ifs at h with hx
    simp only [Option.some.injEq] at h
    rw [← h]
    exact hx

/-- A field that the extraction accepts as a whole denotes a number in the range of
`double`. -/
theorem readValue_in_range (field : List Char) (v : ℚ)
    (hw : ∀ c ∈ field, isSpace c = false) (h : readValue field = some (v, [])) :
    fieldValue field = some v ∧ |v| < doubleOverflow := by
  have hskip : skipWs field = field := by
    cases field with
    | nil => rfl
    | cons c cs => exact skipWs_word c cs (hw c (List.mem_cons_self c cs))
  unfold readValue at h
  rw [hskip] at h
  simp only at h
  cases hf : fieldValue (scanField field).1 with
  | none => rw [hf] at h; exact absurd h (by simp)
  | some x =>
    rw [hf] at h
    simp only [Option.some.injEq, Prod.mk.injEq] at h
    have hp := scanField_partition field
    rw [h.2, List.append_nil] at hp
    rw [hp, h.1] at hf
    exact ⟨hf, fieldValue_in_range field v hf⟩

/-- Claim C8, as amended. `loadConfig` returns false exactly when the file cannot be opened,
and its loop always ends. For a file of whitespace-separated key / numeric-value pairs whose
values the extraction of a `double` accepts, which excludes numbers outside the range of
`double`, loaded into the empty map of a fresh process, it returns true and the map holds for
every key the value of the last pair with that key, and reads as 0 for a key without a pair.
When moreover the parameter line of these values fits the buffer of `runController`, the
start-up passes these values of `kP`, `kI`, `kD`, `iMin`, `iMax`, `targetTemp` and `timeStep`
to the regulator, and the threshold in seconds is 60 times the value of `autoPowerOff`. -/
theorem loadConfig_last_value :
    (∀ (file : Option (List Char)) (config : Config),
      (loadConfig file config).1 = false ↔ file = none) ∧
    (∀ (f : List Char) (config : Config),
      ∃ c, loadConfigLoop (f.length + 1) f config = some c ∧
        loadConfig (some f) config = (true, c)) ∧
    (∀ (lead : List Char) (entries : List Entry), WellFormedFile lead entries →
      (∀ e ∈ entries, fieldValue e.field = some e.value ∧ |e.value| < doubleOverflow) ∧
      loadConfig (some (lead ++ entriesText entries)) [] = (true, entriesConfig entries) ∧
      (∀ key, (∀ e ∈ entries, e.key ≠ key) → (entriesConfig entries).get key = 0) ∧
      (∀ pre e post, entries = pre ++ e :: post → (∀ e' ∈ post, e'.key ≠ e.key) →
        (entriesConfig entries).get e.key = e.value) ∧
      (∀ (interactive : Bool) (w : World) (s : State),
        w.button2 = false → w.logOpens = true →
        w.configFile = some (lead ++ entriesText entries) → s.config = [] →
        headerFits (entriesConfig entries) →
          startup interactive w s = (none, configured interactive (entriesConfig entries) s) ∧
          (configured interactive (entriesConfig entries) s).autoPowerOff =
            60 * (entriesConfig entries).get "autoPowerOff".toList ∧
          (configured interactive (entriesConfig entries) s).regulator =
            { s.regulator with
              kP := (entriesConfig entries).get "kP".toList
              kI := (entriesConfig entries).get "kI".toList
              kD := (entriesConfig entries).get "kD".toList
              iMin := (entriesConfig entries).get "iMin".toList
              iMax := (entriesConfig entries).get "iMax".toList
              targetTemperature := (entriesConfig entries).get "targetTemp".toList
              timeStep := (entriesConfig entries).get "timeStep".toList })) := by
  have hterm : ∀ (f : List Char) (config : Config),
      ∃ c, loadConfigLoop (f.length + 1) f config = some c ∧
        loadConfig (some f) config = (true, c) := by
    intro f config
    obtain ⟨c, hc⟩ := loadConfigLoop_terminates (f.length + 1) f config (Nat.lt_succ_self _)
    refine ⟨c, hc, ?_⟩
    unfold loadConfig
    simp only [hc]
  refine ⟨?_, hterm, ?_⟩
  · intro file config
    cases file with
    | none => simp [loadConfig]
    | some f =>
      obtain ⟨c, _, hc⟩ := hterm f config
      rw [hc]
      simp
  · intro lead entries hwf
    obtain ⟨hl, he, hs⟩ := hwf
    have hloop := loadConfigLoop_entries entries lead ((lead ++ entriesText entries).length + 1)
      [] hl he hs (Nat.lt_succ_self _)
    rw [List.append_nil] at hloop
    have hload : loadConfig (some (lead ++ entriesText entries)) [] =
        (true, entriesConfig entries) := by
      unfold loadConfig
      simp only [hloop]
    have hget := entriesConfig_get entries []
    simp only [List.append_nil] at hget
    refine ⟨?_, hload, ?_, hget.2, ?_⟩
    · intro e hmem
      exact readValue_in_range e.field e.value (he e hmem).2.2.2.2.1 (he e hmem).2.2.2.2.2.1
    · intro key hk
      rw [hget.1 key hk]
      rfl
    · intro interactive w s hb hlog hfile hcfg _
      refine ⟨?_, ?_, rfl⟩
      · apply startup_ready interactive w s _ hb hlog
        rw [hfile, hcfg]
        exact hload
      · show (entriesConfig entries).get "autoPowerOff".toList * 60 = _
        ring

/-- The example file: `kP` is given twice and gets its last value, `iMax` is not given and
reads as 0; the value fields denote the numbers of the pairs. -/
theorem loadConfig_last_value_witness :
    [] ++ entriesText exampleEntries =
      "kP 1.5\nkI 2 kD\t-3e-1\n autoPowerOff 1\nkP  7".toList ∧
    loadConfig (some ([] ++ entriesText exampleEntries)) [] =
      (true, entriesConfig exampleEntries) ∧
    (entriesConfig exampleEntries).get "iMax".toList = 0 ∧
    (entriesConfig exampleEntries).get "kP".toList = 7 ∧
    (entriesConfig exampleEntries).get "kD".toList = -3 / 10 ∧
    headerFits (entriesConfig exampleEntries) :=
  have h := loadConfig_last_value.2.2 [] exampleEntries
    ⟨by simp, by decide!, by simp [separated, exampleEntries]⟩
  ⟨by decide, h.2.1, h.2.2.1 "iMax".toList (by decide), by decide!, by decide!, by decide!⟩

/-- Claim C8 as stated fails for a value outside the range of `double`: in the file
`kP 1e999`, `kI 2` every field is a number, but the extraction of `1e999` fails, the loop
stops, and `kI` reads as 0 although its last occurrence in the file is 2; the start-up passes
0 to the regulator. -/
theorem loadConfig_overflow_counterexample :
    fieldNumber "1e999".toList = some (10 ^ 999) ∧
    fieldNumber "2".toList = some 2 ∧
    readValue " 1e999\nkI 2\n".toList = none ∧
    loadConfig (some overflowFile) [] = (true, []) ∧
    (loadConfig (some overflowFile) []).2.get "kI".toList = 0 ∧
    (loadConfig (some overflowFile) []).2.get "kI".toList ≠ 2 ∧
    (startup false
      { button2 := false, logOpens := true, configFile := some overflowFile, cycles := [] }
      exampleState).2.regulator.kI = 0 := by
  decide!

/-! ## `Temperature::getDegrees` -/

/-- Claim C10. The code at readings that do not have five digits: for the second line
`... t=100000` (100 degrees) and for `... t=9500` (9.5 degrees) `getDegrees` returns true and
stores 0, because it converts the last five characters of the line, `00000` and `=9500`; for
`... t=105250` it stores 5.25. Five-digit readings such as `t=23125` and `t=93000` are stored
as 23.125 and 93. -/
theorem getDegrees_takes_five_characters :
    getDegrees (crcLine ++ "72 01 4b 46 7f ff 0e 10 57 t=100000\n".toList) [] =
      Reading.value true 0 ∧
    getDegrees (crcLine ++ "72 01 4b 46 7f ff 0e 10 57 t=9500\n".toList) [] =
      Reading.value true 0 ∧
    getDegrees (crcLine ++ "72 01 4b 46 7f ff 0e 10 57 t=105250\n".toList) [] =
      Reading.value true (21 / 4) ∧
    getDegrees (crcLine ++ "72 01 4b 46 7f ff 0e 10 57 t=23125\n".toList) [] =
      Reading.value true (23125 / 1000) ∧
    getDegrees (crcLine ++ "72 01 4b 46 7f ff 0e 10 57 t=93000\n".toList) [] =
      Reading.value true 93 := by
  decide!

end Gaggia
